import Mathlib

/-
  Verification development for the davidbot recommendation core.

  Shallow embedding of:
  * `SongUsageRepository.calculate_familiarity_score` (database/repositories.py)
  * `DatabaseRecommendationEngine.search` and its helpers
    (database_recommendation_engine.py)
  * `EnhancedRecommendationEngine._handle_theme_search` and its filters
    (enhanced_recommendation_engine.py)
  * `SessionManager` (session_manager.py)
  * `BotHandler._handle_more_request` / `_handle_feedback` (bot_handler.py)
  * `EnhancedBotHandler._handle_more_request` / `_handle_feedback`
    (enhanced_bot_handler.py)

  Modelling conventions:
  * Timestamps on usage records are integer day indices (the scorer only ever
    uses `(now - used_date).days`, an integer number of days).
  * Session clock values are rationals measured in minutes (datetimes have
    sub-minute resolution; the TTL arithmetic only compares differences
    against 60 minutes).
  * Python floats are modelled as real numbers; `round(x, 1)` is modelled as
    round-half-to-even on the mathematical value.
  * Database rows are records in Lean lists; a query's ORDER BY is modelled by
    the order of the embedding's input list.
-/

namespace DavidBot

/-- A row of the `song_usage` table (database/models.py `SongUsage`):
`used_date` is the usage timestamp as an integer day index, `service_type`
the category label (for example `worship`, `feedback_positive`,
`feedback_negative`), `notes` the optional free-text note. -/
structure SongUsage where
  used_date : ℤ
  service_type : String
  notes : Option String
deriving Repr, DecidableEq

/-- Python `round` to the nearest integer, rounding exact halves to the even
neighbour (banker's rounding), on the mathematical value of the float. -/
noncomputable def pyRound (x : ℝ) : ℤ :=
  if Int.fract x = 1 / 2 then (if Even ⌊x⌋ then ⌊x⌋ else ⌊x⌋ + 1) else round x

/-- Python `round(x, 1)`: round to one decimal place. -/
noncomputable def roundTo1 (x : ℝ) : ℝ :=
  (pyRound (10 * x) : ℝ) / 10

/-- The exponential decay factor `math.exp(-days_ago / 86.4)` used by
`calculate_familiarity_score` (~60 day half-life). -/
noncomputable def decay_factor (days_ago : ℤ) : ℝ :=
  Real.exp (-(days_ago : ℝ) / 86.4)

/-- The raw (pre-rounding, pre-clamp) total score accumulated by
`calculate_familiarity_score`: the most recent at-most-20 usage records each
contribute `1.0 * decay_factor(days_ago)`.  `usage_records` is the song's
usage history ordered by `used_date` descending (the embedding of the query
`order_by(SongUsage.used_date.desc()).limit(20)` is `List.take 20` of that
list). -/
noncomputable def raw_total_score (now : ℤ) (usage_records : List SongUsage) : ℝ :=
  ((usage_records.take 20).map (fun u => 1.0 * decay_factor (now - u.used_date))).sum

/-- `SongUsageRepository.calculate_familiarity_score`
(database/repositories.py, lines 300-331): fetch the most recent at-most-20
usage records; with no records the score is 0.0; otherwise sum the decayed
contributions, round to one decimal place and cap at 10.0. -/
noncomputable def calculate_familiarity_score (now : ℤ) (usage_records : List SongUsage) : ℝ :=
  if (usage_records.take 20).isEmpty then 0.0
  else min (roundTo1 (raw_total_score now usage_records)) 10.0

/-- The reference formula of the specification (spec 4.2 and claim C2),
written from its words: `min(round(sum of exp(-days_ago/86.4), 1), 10.0)`,
the sum ranging over the song's most recent at-most-20 usage events. -/
noncomputable def familiarity_reference_formula (now : ℤ) (usage_records : List SongUsage) : ℝ :=
  min (roundTo1 (((usage_records.take 20).map
    (fun u => Real.exp (-((now - u.used_date : ℤ) : ℝ) / 86.4))).sum)) 10.0

/-- The usage record written by
`EnhancedBotHandler._log_feedback_and_update_familiarity` for a thumbs-down:
`record_usage(song_id, service_type='feedback_negative',
notes='thumbs_down_feedback_-0.1')`; `used_date` defaults to the current time
(database/models.py `SongUsage.used_date`). -/
def feedback_negative_usage (now : ℤ) : SongUsage :=
  ⟨now, "feedback_negative", some "thumbs_down_feedback_-0.1"⟩

/-- The sort key of `DatabaseRecommendationEngine._apply_familiarity_scoring`
(database_recommendation_engine.py line 275): the decorated entries
`(original_order, song)` are ordered by `(-familiarity_score, original_order)`.
`scoring_key_le x y` says `x`'s key is at most `y`'s key.  The score type is
an arbitrary linear order standing for the Python floats. -/
def scoring_key_le {α β : Type} [LinearOrder β] (score : α → β) (x y : ℕ × α) : Prop :=
  score y.2 < score x.2 ∨ (score x.2 = score y.2 ∧ x.1 ≤ y.1)

instance scoring_key_le_decidable {α β : Type} [LinearOrder β] (score : α → β) :
    DecidableRel (scoring_key_le score) := fun x y =>
  decidable_of_iff (score y.2 < score x.2 ∨ (score x.2 = score y.2 ∧ x.1 ≤ y.1)) Iff.rfl

instance scoring_key_le_isTotal {α β : Type} [LinearOrder β] (score : α → β) :
    IsTotal (ℕ × α) (scoring_key_le score) := by
  constructor
  intro x y
  rcases lt_trichotomy (score x.2) (score y.2) with h | h | h
  · exact Or.inr (Or.inl h)
  · rcases Nat.le_total x.1 y.1 with hn | hn
    · exact Or.inl (Or.inr ⟨h, hn⟩)
    · exact Or.inr (Or.inr ⟨h.symm, hn⟩)
  · exact Or.inl (Or.inl h)

instance scoring_key_le_isTrans {α β : Type} [LinearOrder β] (score : α → β) :
    IsTrans (ℕ × α) (scoring_key_le score) := by
  constructor
  intro x y z hxy hyz
  rcases hxy with h1 | ⟨e1, n1⟩
  · rcases hyz with h2 | ⟨e2, _⟩
    · exact Or.inl (h2.trans h1)
    · exact Or.inl (e2 ▸ h1)
  · rcases hyz with h2 | ⟨e2, n2⟩
    · exact Or.inl (by rw [e1]; exact h2)
    · exact Or.inr ⟨e1.trans e2, n1.trans n2⟩

/-- `DatabaseRecommendationEngine._apply_familiarity_scoring`
(database_recommendation_engine.py lines 245-292): decorate each song with
its original position (`original_order = len(songs_with_scores)`), sort the
decorated list by the key `(-familiarity_score, original_order)` and extract
the songs in the new order.  Since the positions are pairwise distinct the
key is a total order, so Python's stable `list.sort` computes the unique
sorted arrangement, realised here by `List.insertionSort`. -/
def apply_familiarity_scoring {α β : Type} [LinearOrder β] (score : α → β)
    (songs : List α) : List α :=
  ((songs.enum).insertionSort (scoring_key_le score)).map Prod.snd

/-- Helper for SQL ilike containment: does the character list starting here
begin with the needle? -/
def charsStartWith : List Char → List Char → Bool
  | _, [] => true
  | [], _ :: _ => false
  | c :: cs, d :: ds => c == d && charsStartWith cs ds

/-- Helper for SQL ilike containment: does the haystack contain the needle as
a contiguous run? -/
def charsContain : List Char → List Char → Bool
  | [], needle => needle.isEmpty
  | c :: cs, needle => charsStartWith (c :: cs) needle || charsContain cs needle

/-- Python `str.lower()` on the character list. -/
def lower_str (s : String) : String :=
  String.mk (s.toList.map Char.toLower)

/-- SQL `column.ilike(f"%{pat}%")`: case-insensitive substring containment. -/
def ilike_contains (value pat : String) : Bool :=
  charsContain (value.toList.map Char.toLower) (pat.toList.map Char.toLower)

/-- A row of the `songs` table together with its associated data
(database/models.py `Song`, `ThemeMapping`, `Lyrics`): the fields the
recommendation core reads.  `themes` lists the song's theme names in
confidence-descending order (modelling the `ORDER BY confidence_score DESC`
of the theme queries); `lyrics_fields` carries the song's lyric text fields
(`first_line`, `chorus`, `bridge`), empty when the song has no lyrics row. -/
structure DbSong where
  title : String
  artist : String
  original_key : Option String
  bpm : Option ℕ
  themes : List String
  lyrics_fields : List String
  is_active : Bool
deriving Repr, DecidableEq

/-- `SearchResult` (models.py): the songs carried through the bot are the
database songs (the `_convert_db_song_to_bot_song` conversion preserves
title, artist, key, bpm and themes, so it is dropped here). -/
structure SearchResult where
  songs : List DbSong
  matched_term : String
  theme : String
deriving Repr, DecidableEq

/-- `ParsedQuery` (llm_query_parser.py lines 15-26): the fields the engines
read.  `intent` defaults to `search`, `raw_query` to the empty string. -/
structure ParsedQuery where
  themes : List String
  bpm_min : Option ℕ := none
  bpm_max : Option ℕ := none
  key_preference : Option String := none
  intent : String := "search"
  similarity_song : Option String := none
  raw_query : String := ""
deriving Repr, DecidableEq

/-- `SongRepository.search_by_theme` (database/repositories.py lines 30-37):
active songs joined to a theme mapping whose name ilike-contains the theme,
ordered by mapping confidence descending (modelled by the catalog order) and
limited. -/
def search_by_theme (catalog : List DbSong) (theme : String) (limit : ℕ) : List DbSong :=
  (catalog.filter (fun s =>
    s.is_active && s.themes.any (fun t => ilike_contains t theme))).take limit

/-- `SongRepository.search_by_text` (database/repositories.py lines 39-52):
active songs whose title or artist ilike-contains the query, limited. -/
def search_by_text (catalog : List DbSong) (query : String) (limit : ℕ) : List DbSong :=
  (catalog.filter (fun s =>
    (ilike_contains s.title query || ilike_contains s.artist query) && s.is_active)).take limit

/-- `LyricsRepository.search_lyrics_content` followed by
`SongRepository.get_by_id` (repositories.py lines 111-119 and engine lines
91-102): songs whose lyric fields ilike-contain the query, limited.  Note the
lyrics stage does not re-check `is_active` (faithful to the source). -/
def search_lyrics_songs (catalog : List DbSong) (query : String) (limit : ℕ) : List DbSong :=
  (catalog.filter (fun s => s.lyrics_fields.any (fun f => ilike_contains f query))).take limit

/-- `_keys_match` normalisation (database_recommendation_engine.py lines
240-241): `key.upper().replace('B', 'b')` — upper-case every character, then
turn every `B` (a single-character pattern) into `b`. -/
def normalize_key (key : String) : String :=
  String.mk ((key.toList.map Char.toUpper).map (fun c => if c == 'B' then 'b' else c))

/-- `DatabaseRecommendationEngine._keys_match` (lines 234-243). -/
def keys_match (key1 key2 : String) : Bool :=
  if key1.isEmpty || key2.isEmpty then false
  else normalize_key key1 == normalize_key key2

/-- `DatabaseRecommendationEngine._song_has_key` (lines 226-232): checks the
song's original key only. -/
def song_has_key (s : DbSong) (target_key : String) : Bool :=
  match s.original_key with
  | none => false
  | some k => keys_match k target_key

/-- `DatabaseRecommendationEngine._filter_songs_by_key` (lines 200-224): with
an empty target key or no songs, everything is returned unchanged; otherwise
keep the songs whose original key matches. -/
def filter_songs_by_key (songs : List DbSong) (target_key : String) : List DbSong :=
  if target_key.isEmpty || songs.isEmpty then songs
  else songs.filter (fun s => song_has_key s target_key)

/-- The key-filter leniency step of `DatabaseRecommendationEngine.search`
(lines 108-115): keep the key-filtered candidates if any survive, otherwise
fall back to the unfiltered set. -/
def key_filter_step (songs : List DbSong) (kp : String) : List DbSong :=
  let key_filtered := filter_songs_by_key songs kp
  if key_filtered.isEmpty then songs else key_filtered

/-- The theme loop of `DatabaseRecommendationEngine.search` (lines 64-77):
try each extracted theme in order; the first theme whose `search_by_theme`
result is nonempty wins (`break`), its songs minus the excluded titles
becoming the candidates.  Later themes are never consulted. -/
def theme_stage (catalog : List DbSong) (excluded_songs : List String) :
    List String → Option (String × List DbSong)
  | [] => none
  | theme :: rest =>
    let theme_songs := search_by_theme catalog theme 10
    if theme_songs.isEmpty then theme_stage catalog excluded_songs rest
    else some (theme, theme_songs.filter (fun s => !excluded_songs.contains s.title))

/-- The theme stage of `DatabaseRecommendationEngine.search` (lines 64-77)
as a candidates/label pair: the first-theme-wins loop result, or an empty
candidate list when no theme matched. -/
def db_theme_step (catalog : List DbSong) (potential_themes : List String)
    (excluded_songs : List String) : List DbSong × Option String :=
  match theme_stage catalog excluded_songs potential_themes with
  | some p => (p.2, some p.1)
  | none => ([], none)

/-- The text fallback of `DatabaseRecommendationEngine.search` (lines
79-89): runs only when the previous stage produced no candidates. -/
def db_text_step (catalog : List DbSong) (query : String)
    (excluded_songs : List String) (prev : List DbSong × Option String) :
    List DbSong × Option String :=
  if prev.1.isEmpty then
    ((search_by_text catalog query 10).filter
      (fun s => !excluded_songs.contains s.title), some "text_match")
  else prev

/-- The lyrics fallback of `DatabaseRecommendationEngine.search` (lines
91-102): runs only when the previous stages produced no candidates. -/
def db_lyrics_step (catalog : List DbSong) (query : String)
    (excluded_songs : List String) (prev : List DbSong × Option String) :
    List DbSong × Option String :=
  if prev.1.isEmpty then
    ((search_lyrics_songs catalog query 5).filter
      (fun s => !excluded_songs.contains s.title), some "lyrics_match")
  else prev

/-- The three staged matches of `DatabaseRecommendationEngine.search` (lines
64-102), composed in source order. -/
def db_stage_candidates (catalog : List DbSong) (potential_themes : List String)
    (query : String) (excluded_songs : List String) : List DbSong × Option String :=
  db_lyrics_step catalog query excluded_songs
    (db_text_step catalog query excluded_songs
      (db_theme_step catalog potential_themes excluded_songs))

/-- The key-preference filtering of `DatabaseRecommendationEngine.search`
(lines 108-115), including the leniency fallback and the label update. -/
def db_key_step (matching_songs : List DbSong) (matched_theme : Option String)
    (key_preference : Option String) : List DbSong × Option String :=
  match key_preference with
  | some kp =>
    if kp.isEmpty then (matching_songs, matched_theme)
    else
      if (filter_songs_by_key matching_songs kp).isEmpty then
        (matching_songs, matched_theme)
      else (filter_songs_by_key matching_songs kp,
        some ((matched_theme.getD "None") ++ " in " ++ kp))
  | none => (matching_songs, matched_theme)

/-- The final label `matched_theme or query` of the search result (lines
127-128; Python falsy-or, so an empty label also falls back to the query). -/
def db_result_label (matched_theme : Option String) (query : String) : String :=
  match matched_theme with
  | some m => if m.isEmpty then query else m
  | none => query

/-- `DatabaseRecommendationEngine.search` (lines 46-134), with the two
query-string extraction helpers factored into parameters: `potential_themes`
stands for `_extract_themes_from_query(query_lower)` and `key_preference`
for `_extract_key_from_query(query_lower)`.  The familiarity score lookup is
the parameter `score` (an arbitrary linear order standing for the float
scores).  Returns `none` both when nothing matches and on a store error. -/
def db_search {β : Type} [LinearOrder β] (catalog : List DbSong) (score : DbSong → β)
    (potential_themes : List String) (key_preference : Option String)
    (query : String) (excluded_songs : List String) : Option SearchResult :=
  if (db_stage_candidates catalog potential_themes query excluded_songs).1.isEmpty then
    none
  else
    some ⟨(apply_familiarity_scoring score
        (db_key_step (db_stage_candidates catalog potential_themes query excluded_songs).1
          (db_stage_candidates catalog potential_themes query excluded_songs).2
          key_preference).1).take 5,
      db_result_label
        (db_key_step (db_stage_candidates catalog potential_themes query excluded_songs).1
          (db_stage_candidates catalog potential_themes query excluded_songs).2
          key_preference).2 query,
      db_result_label
        (db_key_step (db_stage_candidates catalog potential_themes query excluded_songs).1
          (db_stage_candidates catalog potential_themes query excluded_songs).2
          key_preference).2 query⟩

/-- Python truthiness of an optional integer (`if bpm_min:`): present and
nonzero. -/
def optNatTruthy : Option ℕ → Bool
  | none => false
  | some n => n != 0

/-- `EnhancedRecommendationEngine._filter_by_bpm` (lines 169-186): with no
bound given return everything; otherwise drop songs without a (truthy) BPM
and enforce each given bound. -/
def filter_by_bpm (songs : List DbSong) (bpm_min bpm_max : Option ℕ) : List DbSong :=
  if !optNatTruthy bpm_min && !optNatTruthy bpm_max then songs
  else songs.filter (fun s =>
    match s.bpm with
    | none => false
    | some b =>
      b != 0
        && (!optNatTruthy bpm_min || bpm_min.getD 0 ≤ b)
        && (!optNatTruthy bpm_max || b ≤ bpm_max.getD 0))

/-- `EnhancedRecommendationEngine._filter_by_key` (lines 188-194): exact
original-key equality; if nothing matches, all songs are returned. -/
def filter_by_key (songs : List DbSong) (preferred_key : String) : List DbSong :=
  let filtered := songs.filter (fun s => s.original_key == some preferred_key)
  if filtered.isEmpty then songs else filtered

/-- The duplicate removal of the enhanced engine (lines 69-75 and 139-145):
keep the first occurrence of each title, threading the set of seen titles. -/
def dedup_by_title : List DbSong → List String → List DbSong
  | [], _ => []
  | s :: rest, seen =>
    if seen.contains s.title then dedup_by_title rest seen
    else s :: dedup_by_title rest (s.title :: seen)

/-- The shared tail of the enhanced engine's searches (lines 69-92 and
139-158): dedup by title, empty means no result, otherwise truncate to 10,
familiarity-sort, truncate to 5 and build the `SearchResult`. -/
def finish_search {β : Type} [LinearOrder β] (score : DbSong → β)
    (matching : List DbSong) (matched_term theme : String) : Option SearchResult :=
  if (dedup_by_title matching []).isEmpty then none
  else
    some ⟨(apply_familiarity_scoring score ((dedup_by_title matching []).take 10)).take 5,
      matched_term, theme⟩

/-- `EnhancedRecommendationEngine._handle_theme_search` (lines 34-98): theme
matches are collected across ALL themes (`extend`, no break), with a text
fallback, then BPM/key filters, exclusion, title dedup, truncation to 10,
familiarity sort and truncation to 5. -/
def handle_theme_search {β : Type} [LinearOrder β] (catalog : List DbSong)
    (score : DbSong → β) (pq : ParsedQuery) (excluded_songs : List String) :
    Option SearchResult :=
  let matching := pq.themes.flatMap (fun th => search_by_theme catalog th 20)
  let matching :=
    if matching.isEmpty then pq.themes.flatMap (fun th => search_by_text catalog th 10)
    else matching
  let matching :=
    if optNatTruthy pq.bpm_min || optNatTruthy pq.bpm_max then
      filter_by_bpm matching pq.bpm_min pq.bpm_max
    else matching
  let matching := match pq.key_preference with
    | some kp => if kp.isEmpty then matching else filter_by_key matching kp
    | none => matching
  let matching :=
    if excluded_songs.isEmpty then matching
    else matching.filter (fun s => !excluded_songs.contains s.title)
  let matched_themes := String.intercalate ", " pq.themes
  finish_search score matching matched_themes matched_themes

/-- `EnhancedRecommendationEngine._handle_similarity_search` (lines 100-162):
find the reference song by text, reuse its themes (top 5), constrain BPM to
within 20 of the reference when it has one, exclude the reference and the
exclusion set, dedup, truncate to 10, familiarity sort, truncate to 5. -/
def handle_similarity_search {β : Type} [LinearOrder β] (catalog : List DbSong)
    (score : DbSong → β) (pq : ParsedQuery) (excluded_songs : List String) :
    Option SearchResult :=
  match search_by_text catalog (pq.similarity_song.getD "") 1 with
  | [] => handle_theme_search catalog score pq excluded_songs
  | ref_song :: _ =>
    let similar := (ref_song.themes.take 5).flatMap (fun th => search_by_theme catalog th 10)
    let similar := match ref_song.bpm with
      | some b =>
        if b != 0 then
          filter_by_bpm similar (some (max 60 (b - 20))) (some (min 180 (b + 20)))
        else similar
      | none => similar
    let similar := similar.filter
      (fun s => !(excluded_songs ++ [ref_song.title]).contains s.title)
    finish_search score similar ("similar to " ++ pq.similarity_song.getD "")
      ("similar to " ++ ref_song.title)

/-- `EnhancedRecommendationEngine.search_with_parsed_query` (lines 19-32):
dispatch on intent and similarity; a `more` intent is handled as a theme
search with the exclusion set (line 167). -/
def search_with_parsed_query {β : Type} [LinearOrder β] (catalog : List DbSong)
    (score : DbSong → β) (pq : ParsedQuery) (excluded_songs : List String) :
    Option SearchResult :=
  if pq.intent == "more" then handle_theme_search catalog score pq excluded_songs
  else match pq.similarity_song with
    | some s =>
      if s.isEmpty then handle_theme_search catalog score pq excluded_songs
      else handle_similarity_search catalog score pq excluded_songs
    | none => handle_theme_search catalog score pq excluded_songs

/-- The synonym table of
`DatabaseRecommendationEngine._extract_themes_from_query` (lines 139-154),
in source (dict insertion) order. -/
def theme_mappings : List (String × List String) :=
  [("surrender", ["surrender", "yielding", "giving up", "submission"]),
   ("worship", ["worship", "praise", "adoration", "honor"]),
   ("grace", ["grace", "mercy", "forgiveness", "undeserved"]),
   ("love", ["love", "loving", "beloved", "affection"]),
   ("peace", ["peace", "calm", "rest", "tranquil", "still"]),
   ("hope", ["hope", "hopeful", "future", "expectation"]),
   ("faith", ["faith", "trust", "belief", "confidence"]),
   ("joy", ["joy", "joyful", "happiness", "celebration"]),
   ("redemption", ["redemption", "salvation", "saved", "redeemed"]),
   ("commitment", ["commitment", "dedication", "devoted"]),
   ("consecration", ["consecration", "holy", "sacred", "set apart"]),
   ("altar-call", ["altar call", "altar-call", "invitation", "response"]),
   ("blood", ["blood", "cross", "sacrifice", "calvary"]),
   ("cleansing", ["cleansing", "clean", "wash", "pure", "purify"])]

/-- Python `str.replace(pat, rep)` on character lists, scanning left to
right; the fuel argument (instantiated with the string length, enough for
the one-character-per-step scan) keeps the recursion structural. -/
def replace_fuel (pat rep : List Char) : ℕ → List Char → List Char
  | _, [] => []
  | 0, s => s
  | fuel + 1, c :: cs =>
    if !pat.isEmpty && charsStartWith (c :: cs) pat then
      rep ++ replace_fuel pat rep fuel (List.drop (pat.length - 1) cs)
    else c :: replace_fuel pat rep fuel cs

/-- Python `s.replace(pat, rep)`. -/
def replace_str (s pat rep : String) : String :=
  String.mk (replace_fuel pat.toList rep.toList s.toList.length s.toList)

/-- Python `s.split(sep)` on character lists, scanning left to right with
the same structural fuel. -/
def split_fuel (sep : List Char) : ℕ → List Char → List Char → List (List Char)
  | _, acc, [] => [acc.reverse]
  | 0, acc, s => [acc.reverse ++ s]
  | fuel + 1, acc, c :: cs =>
    if !sep.isEmpty && charsStartWith (c :: cs) sep then
      acc.reverse :: split_fuel sep fuel [] (List.drop (sep.length - 1) cs)
    else split_fuel sep fuel (c :: acc) cs

/-- Python `s.split(sep)` for a nonempty separator. -/
def split_str (s sep : String) : List String :=
  (split_fuel sep.toList s.toList.length [] s.toList).map String.mk

/-- Python `word.strip(',.')`: drop leading and trailing commas and dots. -/
def strip_punct (w : String) : String :=
  let core := ((w.toList.dropWhile (fun c => c == ',' || c == '.')).reverse.dropWhile
    (fun c => c == ',' || c == '.')).reverse
  String.mk core

/-- `DatabaseRecommendationEngine._extract_themes_from_query` (lines
136-172): synonym-table hits in table order, then the query's own words
(after removing the two search prefixes) longer than two characters.  The
argument is the already-lowercased query. -/
def extract_themes_from_query (query_lower : String) : List String :=
  let direct := (theme_mappings.filter
    (fun m => m.2.any (fun syn => ilike_contains query_lower syn))).map Prod.fst
  let words := split_str (replace_str (replace_str query_lower "find songs on" "")
    "find songs about" "") " "
  direct ++ ((words.map strip_punct).filter (fun w => 2 < w.length))

/-- `DatabaseRecommendationEngine.search` as called by the handlers:
`db_search` applied to the extraction helpers.  The regex-based
`_extract_key_from_query` is kept as the parameter `key_extract` (every
claim proved here holds for all of its values). -/
def db_engine_search {β : Type} [LinearOrder β] (catalog : List DbSong)
    (score : DbSong → β) (key_extract : String → Option String)
    (query : String) (excluded_songs : List String) : Option SearchResult :=
  db_search catalog score (extract_themes_from_query (lower_str query))
    (key_extract (lower_str query)) query excluded_songs

/-- `UserSession` (models.py lines 28-34).  `last_activity` is in rational
minutes. -/
structure UserSession where
  user_id : String
  last_search : Option SearchResult
  last_activity : ℚ
  returned_songs : List String
deriving Repr, DecidableEq

/-- The process-wide `Dict[str, UserSession]` (and the analogous context
dict), modelled as an association list keyed by user id. -/
def store_lookup {σ : Type} (store : List (String × σ)) (uid : String) : Option σ :=
  match store.find? (fun p => p.1 == uid) with
  | some p => some p.2
  | none => none

/-- Python `del store[uid]`. -/
def store_erase {σ : Type} (store : List (String × σ)) (uid : String) :
    List (String × σ) :=
  store.filter (fun p => p.1 != uid)

/-- Python `store[uid] = v` for a key already present. -/
def store_update {σ : Type} (store : List (String × σ)) (uid : String) (v : σ) :
    List (String × σ) :=
  store.map (fun p => if p.1 == uid then (uid, v) else p)

/-- `SessionManager.session_ttl_minutes` (session_manager.py line 14). -/
def session_ttl_minutes : ℚ := 60

/-- `SessionManager._is_session_expired` (lines 69-73):
`now >= last_activity + timedelta(minutes=60)`. -/
def is_session_expired (now : ℚ) (session : UserSession) : Bool :=
  decide (session.last_activity + session_ttl_minutes ≤ now)

/-- `SessionManager.get_session` (lines 16-28): absent gives none; an expired
session is deleted and gives none; otherwise the session is returned.  The
second component is the (possibly mutated) session store. -/
def get_session (now : ℚ) (sessions : List (String × UserSession)) (uid : String) :
    Option UserSession × List (String × UserSession) :=
  match store_lookup sessions uid with
  | none => (none, sessions)
  | some s =>
    if is_session_expired now s then (none, store_erase sessions uid)
    else (some s, sessions)

/-- `SessionManager.create_or_update_session` (lines 30-54): update the
existing session's activity (and on a search replace the last search and
RESET the returned-songs list), or create a fresh session. -/
def create_or_update_session (now : ℚ) (sessions : List (String × UserSession))
    (uid : String) (search_result : Option SearchResult) :
    UserSession × List (String × UserSession) :=
  match store_lookup sessions uid with
  | some s0 =>
    let s1 := { s0 with last_activity := now }
    let s2 := match search_result with
      | some sr => { s1 with last_search := some sr,
                             returned_songs := sr.songs.map DbSong.title }
      | none => s1
    (s2, store_update sessions uid s2)
  | none =>
    let returned := match search_result with
      | some sr => sr.songs.map DbSong.title
      | none => []
    let s : UserSession := ⟨uid, search_result, now, returned⟩
    (s, sessions ++ [(uid, s)])

/-- `SessionManager.update_session_activity` (lines 56-61). -/
def update_session_activity (now : ℚ) (sessions : List (String × UserSession))
    (uid : String) : Option UserSession × List (String × UserSession) :=
  match get_session now sessions uid with
  | (some s, sessions1) =>
    let s1 := { s with last_activity := now }
    (some s1, store_update sessions1 uid s1)
  | (none, sessions1) => (none, sessions1)

/-- `SessionManager.add_returned_songs_to_session` (lines 63-67): APPEND the
new titles to the already-returned list (never reset here). -/
def add_returned_songs_to_session (now : ℚ) (sessions : List (String × UserSession))
    (uid : String) (song_titles : List String) : List (String × UserSession) :=
  match get_session now sessions uid with
  | (some s, sessions1) =>
    store_update sessions1 uid { s with returned_songs := s.returned_songs ++ song_titles }
  | (none, sessions1) => sessions1

/-- `ResponseFormatter.format_no_previous_search_message`
(response_formatter.py lines 183-185). -/
def format_no_previous_search_message : String :=
  "Please search first before requesting more songs."

/-- `ResponseFormatter.format_session_expired_message`
(response_formatter.py lines 187-189). -/
def format_session_expired_message : String :=
  "Your search session has expired. Please search first before requesting more songs."

/-- The outcome of `BotHandler._handle_more_request` (bot_handler.py lines
101-131).  `never_searched` renders as `format_no_previous_search_message`,
`session_expired` as `format_session_expired_message`, `no_more` as the
no-more-songs message for the theme, `results` as the formatted song list. -/
inductive MoreOutcome where
  | never_searched
  | session_expired
  | no_more (theme : String)
  | results (r : SearchResult)
deriving Repr, DecidableEq

/-- `BotHandler._handle_more_request` (bot_handler.py lines 101-131).  The
recommendation engine is an injected dependency
(`create_recommendation_engine()` chooses an engine at runtime), so the
search call is the parameter `engine_search query excluded`.  The handler
first records whether the user id is present in the raw session dict
(`had_session_before`), then consults `get_session` (which deletes an
expired record), and distinguishes the expired case from never-searched. -/
def bot_handle_more (engine_search : String → List String → Option SearchResult)
    (now : ℚ) (sessions : List (String × UserSession)) (uid : String) :
    MoreOutcome × List (String × UserSession) :=
  let had_session_before := (store_lookup sessions uid).isSome
  match get_session now sessions uid with
  | (sessionOpt, sessions1) =>
    match sessionOpt with
    | none =>
      if had_session_before then (.session_expired, sessions1)
      else (.never_searched, sessions1)
    | some s =>
      match s.last_search with
      | none =>
        if had_session_before then (.session_expired, sessions1)
        else (.never_searched, sessions1)
      | some last =>
        match engine_search ("find songs on " ++ last.theme) s.returned_songs with
        | none => (.no_more last.theme, sessions1)
        | some result =>
          if result.songs.isEmpty then (.no_more last.theme, sessions1)
          else
            let new_titles := result.songs.map DbSong.title
            let sessions2 := add_returned_songs_to_session now sessions1 uid new_titles
            let sessions3 := (update_session_activity now sessions2 uid).2
            (.results result, sessions3)

/-- A per-user entry of `ConversationContext.contexts`
(enhanced_bot_handler.py lines 23-51): the recorded themes and the update
time in rational minutes. -/
structure ConversationContextEntry where
  last_themes : List String
  last_updated : ℚ
deriving Repr, DecidableEq

/-- `ConversationContext.ttl_minutes` (line 28). -/
def context_ttl_minutes : ℚ := 60

/-- `ConversationContext.get_context` (lines 37-47): strictly-older-than-60-
minutes entries are deleted and give none. -/
def get_context (now : ℚ) (contexts : List (String × ConversationContextEntry))
    (uid : String) :
    Option ConversationContextEntry × List (String × ConversationContextEntry) :=
  match store_lookup contexts uid with
  | none => (none, contexts)
  | some c =>
    if context_ttl_minutes < now - c.last_updated then (none, store_erase contexts uid)
    else (some c, contexts)

/-- The outcome of `EnhancedBotHandler._handle_more_request`
(enhanced_bot_handler.py lines 166-196).  `no_previous_search` renders as
the single message "I don\x27t have a previous search to build on. Try
something like \x27find songs on worship\x27." used for BOTH a user who never
searched and a user whose session expired; `redo_search` records that the
handler re-enters `_handle_natural_search` with the context themes. -/
inductive EnhancedMoreOutcome where
  | no_previous_search
  | redo_search (themes : List String)
  | no_more (theme : String)
  | results (r : SearchResult)
deriving Repr, DecidableEq

/-- The fallback of `EnhancedBotHandler._handle_more_request` when there is
no usable session (lines 170-177): with conversation-context themes the
handler re-enters `_handle_natural_search` (recorded as `redo_search`),
otherwise it returns the single no-previous-search message — the same
outcome whether the user never searched or the session expired. -/
def enhanced_more_fallback (now : ℚ)
    (contexts : List (String × ConversationContextEntry)) (uid : String) :
    EnhancedMoreOutcome :=
  match (get_context now contexts uid).1 with
  | some c => if c.last_themes.isEmpty then .no_previous_search
              else .redo_search c.last_themes
  | none => .no_previous_search

/-- `EnhancedBotHandler._handle_more_request` (lines 166-196).  The enhanced
engine is injected: `enhanced_search themes raw excluded` stands for
`enhanced_engine.search_with_parsed_query(ParsedQuery(themes=themes,
raw_query=raw), excluded_songs=excluded)`. -/
def enhanced_handle_more
    (enhanced_search : List String → String → List String → Option SearchResult)
    (now : ℚ) (sessions : List (String × UserSession))
    (contexts : List (String × ConversationContextEntry))
    (uid : String) (raw_query : String) :
    EnhancedMoreOutcome × List (String × UserSession) :=
  match get_session now sessions uid with
  | (sessionOpt, sessions1) =>
    match sessionOpt with
    | none => (enhanced_more_fallback now contexts uid, sessions1)
    | some s =>
      match s.last_search with
      | none => (enhanced_more_fallback now contexts uid, sessions1)
      | some last =>
        match enhanced_search (split_str last.theme ", ") raw_query s.returned_songs with
        | none => (.no_more last.theme, sessions1)
        | some more_result =>
          if more_result.songs.isEmpty then (.no_more last.theme, sessions1)
          else
            (.results more_result,
              (update_session_activity now
                (add_returned_songs_to_session now sessions1 uid
                  (more_result.songs.map DbSong.title)) uid).2)

/-- The position extracted by `re.search(r'👍\s*(\d+)', message)` from a
message of the shape `👍 p` for an integer `p` (bot_handler.py line 145):
the digit-only pattern matches exactly the nonnegative integers; a sign
character never matches, so a negative position is reported as no match. -/
def parse_feedback_position (p : ℤ) : Option ℕ :=
  if 0 ≤ p then some p.toNat else none

/-- An entry of the feedback log written by `BotHandler._log_feedback`
(lines 198-224). -/
structure FeedbackLogEntry where
  user_id : String
  song_title : String
  feedback_type : String
deriving Repr, DecidableEq

/-- The outcome of `BotHandler._handle_feedback` (lines 133-179):
`no_context` renders as `format_no_feedback_context_message`, `invalid` as
`format_invalid_feedback_message` (used both for an out-of-range position
and for a message whose position does not parse), `confirmed` carries the
1-based position and the resolved song title of the feedback event. -/
inductive FeedbackOutcome where
  | no_context
  | invalid
  | confirmed (position : ℕ) (song_title : String)
deriving Repr, DecidableEq

/-- `BotHandler._handle_feedback` (bot_handler.py lines 133-179), with the
regex extraction as the `position_match` parameter.  On a valid position the
feedback event is logged (`_log_feedback` appends an entry when the catalog
resolves the title, lines 198-224) and the session activity is refreshed;
on any rejection the handler returns early with the session store and the
feedback log untouched. -/
def bot_handle_feedback (catalog : List DbSong) (now : ℚ)
    (sessions : List (String × UserSession))
    (feedback_log : List FeedbackLogEntry) (uid : String)
    (position_match : Option ℕ) :
    FeedbackOutcome × List (String × UserSession) × List FeedbackLogEntry :=
  match get_session now sessions uid with
  | (sessionOpt, sessions1) =>
    match sessionOpt with
    | none => (.no_context, sessions1, feedback_log)
    | some s =>
      match s.last_search with
      | none => (.no_context, sessions1, feedback_log)
      | some last =>
        match position_match with
        | none => (.invalid, sessions1, feedback_log)
        | some song_position =>
          let num_songs := last.songs.length
          if song_position < 1 || num_songs < song_position then
            (.invalid, sessions1, feedback_log)
          else
            match last.songs[song_position - 1]? with
            | none => (.invalid, sessions1, feedback_log)
            | some song =>
              let feedback_log1 :=
                if catalog.any (fun c => c.title == song.title) then
                  feedback_log ++ [⟨uid, song.title, "thumbs_up"⟩]
                else feedback_log
              let sessions2 := (update_session_activity now sessions1 uid).2
              (.confirmed song_position song.title, sessions2, feedback_log1)

/-- The search performed by `_handle_natural_search` (lines 148-155): the
enhanced engine first, then — when it produced nothing — the database engine
on the first two themes. -/
def natural_search_result {β : Type} [LinearOrder β] (catalog : List DbSong)
    (score : DbSong → β) (key_extract : String → Option String)
    (pq : ParsedQuery) (excluded : List String) : Option SearchResult :=
  if ((match search_with_parsed_query catalog score pq excluded with
        | some r => r.songs.isEmpty
        | none => true) && !pq.themes.isEmpty) then
    db_engine_search catalog score key_extract
      ("find songs on " ++ String.intercalate " " (pq.themes.take 2)) excluded
  else search_with_parsed_query catalog score pq excluded

/-- `EnhancedBotHandler._handle_natural_search` (enhanced_bot_handler.py
lines 142-164): read the user's exclusion set from the session, search via
`natural_search_result`, and on success create-or-update the session (which
RESETS the returned-songs list to exactly the titles just returned).
Returns the search result delivered to the user (`none` for the no-results
message) and the updated session store. -/
def handle_natural_search {β : Type} [LinearOrder β] (catalog : List DbSong)
    (score : DbSong → β) (key_extract : String → Option String) (now : ℚ)
    (sessions : List (String × UserSession)) (uid : String) (pq : ParsedQuery) :
    Option SearchResult × List (String × UserSession) :=
  match get_session now sessions uid with
  | (sessionOpt, sessions1) =>
    match natural_search_result catalog score key_extract pq
        (match sessionOpt with
          | some s => s.returned_songs
          | none => []) with
    | none => (none, sessions1)
    | some r =>
      if r.songs.isEmpty then (none, sessions1)
      else (some r, (create_or_update_session now sessions1 uid (some r)).2)

/-- The engine call performed by the enhanced more-handler:
`search_with_parsed_query` on `ParsedQuery(themes=themes, raw_query=raw)`
(all other fields defaulted, in particular intent `search`). -/
def enhanced_engine_for_more {β : Type} [LinearOrder β] (catalog : List DbSong)
    (score : DbSong → β) :
    List String → String → List String → Option SearchResult :=
  fun themes raw excluded =>
    search_with_parsed_query catalog score { themes := themes, raw_query := raw } excluded

/-- Run one `more` request per time in `ts` for user `uid` through
`EnhancedBotHandler._handle_more_request` (with no conversation context),
collecting the title list emitted by each successful request. -/
def run_more_requests {β : Type} [LinearOrder β] (catalog : List DbSong)
    (score : DbSong → β) (uid : String) :
    List ℚ → List (String × UserSession) → List (List String)
  | [], _ => []
  | t :: ts, sessions =>
    match enhanced_handle_more (enhanced_engine_for_more catalog score) t sessions []
        uid "more" with
    | (.results r, sessions1) =>
      (r.songs.map DbSong.title) :: run_more_requests catalog score uid ts sessions1
    | (_, sessions1) => run_more_requests catalog score uid ts sessions1

/-- One initial search at time `t0` from a fresh session store followed by a
`more` request at each time in `ts`, all for user `uid` through the enhanced
handler: the per-turn title lists shown to the user. -/
def search_then_more_titles {β : Type} [LinearOrder β] (catalog : List DbSong)
    (score : DbSong → β) (key_extract : String → Option String) (uid : String)
    (pq : ParsedQuery) (t0 : ℚ) (ts : List ℚ) : List (List String) :=
  match handle_natural_search catalog score key_extract t0 [] uid pq with
  | (some r, sessions1) =>
    (r.songs.map DbSong.title) :: run_more_requests catalog score uid ts sessions1
  | (none, sessions1) => run_more_requests catalog score uid ts sessions1

/-- Concrete three-song last search used by the C7 witness. -/
def c7_result : SearchResult :=
  ⟨[⟨"One", "A1", some "G", some 70, ["grace"], [], true⟩,
    ⟨"Two", "A2", some "A", some 71, ["peace"], [], true⟩,
    ⟨"Three", "A3", some "C", some 72, ["hope"], [], true⟩], "grace", "grace"⟩

/-- Concrete active session used by the C7 witness. -/
def c7_session : UserSession :=
  ⟨"u", some c7_result, 0, ["One", "Two", "Three"]⟩

/-- Concrete session store used by the C7 witness. -/
def c7_store : List (String × UserSession) := [("u", c7_session)]

theorem pyRound_le (x : ℝ) : (pyRound x : ℝ) ≤ x + 1 / 2 := by
  unfold pyRound
  by_cases h : Int.fract x = 1 / 2
  · simp only [h, if_pos]
    have hfl : (⌊x⌋ : ℝ) = x - 1 / 2 := by
      have := Int.self_sub_fract x
      rw [h] at this
      linarith
    by_cases he : Even ⌊x⌋
    · simp only [he, if_pos]
      linarith
    · simp only [he, if_neg, not_false_iff, Int.cast_add, Int.cast_one]
      linarith
  · simp only [h, if_neg, if_false]
    rw [round_eq]
    exact_mod_cast Int.floor_le (x + 1 / 2)

theorem le_pyRound (x : ℝ) : x - 1 / 2 ≤ (pyRound x : ℝ) := by
  unfold pyRound
  by_cases h : Int.fract x = 1 / 2
  · have hfl : (⌊x⌋ : ℝ) = x - 1 / 2 := by
      have := Int.self_sub_fract x
      rw [h] at this
      linarith
    by_cases he : Even ⌊x⌋
    · simp only [h, if_pos, he]
      linarith
    · simp only [h, if_pos, he, if_neg, not_false_iff, Int.cast_add, Int.cast_one]
      linarith
  · simp only [h, if_neg, if_false]
    rw [round_eq]
    have := Int.sub_one_lt_floor (x + 1 / 2)
    have : x + 1 / 2 - 1 < (⌊x + 1 / 2⌋ : ℝ) := this
    linarith

theorem pyRound_mono {x y : ℝ} (h : x ≤ y) : pyRound x ≤ pyRound y := by
  by_contra hc
  push_neg at hc
  have h1 : (pyRound y : ℤ) + 1 ≤ pyRound x := hc
  have h1R : (pyRound y : ℝ) + 1 ≤ (pyRound x : ℝ) := by exact_mod_cast h1
  have h2 := le_pyRound y
  have h3 := pyRound_le x
  have hyx : y ≤ x := by linarith
  have hxy : x = y := le_antisymm h hyx
  rw [hxy] at hc
  exact lt_irrefl _ hc

theorem roundTo1_mono {x y : ℝ} (h : x ≤ y) : roundTo1 x ≤ roundTo1 y := by
  unfold roundTo1
  have : pyRound (10 * x) ≤ pyRound (10 * y) := pyRound_mono (by linarith)
  have : (pyRound (10 * x) : ℝ) ≤ (pyRound (10 * y) : ℝ) := by exact_mod_cast this
  linarith

theorem roundTo1_nonneg {x : ℝ} (h : 0 ≤ x) : 0 ≤ roundTo1 x := by
  unfold roundTo1
  have h1 := le_pyRound (10 * x)
  have h2 : (-1 : ℝ) < pyRound (10 * x) := by linarith
  have h3 : (-1 : ℤ) < pyRound (10 * x) := by exact_mod_cast h2
  have h4 : (0 : ℤ) ≤ pyRound (10 * x) := by omega
  have h5 : (0 : ℝ) ≤ (pyRound (10 * x) : ℝ) := by exact_mod_cast h4
  linarith

theorem decay_factor_pos (d : ℤ) : 0 < decay_factor d :=
  Real.exp_pos _

theorem decay_factor_anti {a b : ℤ} (h : a ≤ b) : decay_factor b ≤ decay_factor a := by
  unfold decay_factor
  apply Real.exp_le_exp.mpr
  have hab : (a : ℝ) ≤ (b : ℝ) := by exact_mod_cast h
  have hinv : (0 : ℝ) ≤ (86.4 : ℝ)⁻¹ := by positivity
  calc -(b : ℝ) / 86.4 = -(b : ℝ) * (86.4 : ℝ)⁻¹ := by rw [div_eq_mul_inv]
    _ ≤ -(a : ℝ) * (86.4 : ℝ)⁻¹ := mul_le_mul_of_nonneg_right (by linarith) hinv
    _ = -(a : ℝ) / 86.4 := by rw [div_eq_mul_inv]

theorem decay_factor_le_one {d : ℤ} (h : 0 ≤ d) : decay_factor d ≤ 1 := by
  unfold decay_factor
  rw [show (1 : ℝ) = Real.exp 0 by rw [Real.exp_zero]]
  apply Real.exp_le_exp.mpr
  have : (0 : ℝ) ≤ (d : ℝ) := by exact_mod_cast h
  have h864 : (0 : ℝ) < 86.4 := by norm_num
  apply div_nonpos_of_nonpos_of_nonneg <;> linarith

theorem roundTo1_zero : roundTo1 0 = 0 := by
  unfold roundTo1 pyRound
  have h0 : Int.fract (10 * (0 : ℝ)) = 0 := by norm_num
  rw [show (10 : ℝ) * 0 = 0 by ring]
  have : Int.fract (0 : ℝ) ≠ 1 / 2 := by
    rw [Int.fract_zero]; norm_num
  simp [this]

theorem raw_total_score_nonneg (now : ℤ) (rs : List SongUsage) :
    0 ≤ raw_total_score now rs := by
  unfold raw_total_score
  apply List.sum_nonneg
  intro x hx
  obtain ⟨u, _, rfl⟩ := List.mem_map.mp hx
  have := decay_factor_pos (now - u.used_date)
  linarith

theorem raw_total_score_le_new_event (now : ℤ) (e : SongUsage) (rs : List SongUsage)
    (h : ∀ r ∈ rs, r.used_date ≤ e.used_date) :
    raw_total_score now rs ≤ raw_total_score now (e :: rs) := by
  unfold raw_total_score
  have hcons : (e :: rs).take 20 = e :: rs.take 19 := rfl
  rw [hcons, List.map_cons, List.sum_cons]
  rw [show (20 : ℕ) = 19 + 1 from rfl, List.take_succ, List.map_append, List.sum_append]
  rcases h19 : rs[19]? with _ | r
  · simp only [h19, Option.toList_none, List.map_nil, List.sum_nil, add_zero]
    have := decay_factor_pos (now - e.used_date)
    linarith
  · simp only [h19, Option.toList_some, List.map_cons, List.map_nil, List.sum_cons,
      List.sum_nil, add_zero]
    have hmem : r ∈ rs := List.getElem?_mem h19
    have hle : r.used_date ≤ e.used_date := h r hmem
    have : decay_factor (now - r.used_date) ≤ decay_factor (now - e.used_date) :=
      decay_factor_anti (by omega)
    linarith

/-- C5: appending one new usage event whose timestamp is at least as recent as
every existing event never decreases the computed familiarity score, the
most-recent-20 window included. -/
theorem familiarity_score_monotone_new_event (now : ℤ) (rs : List SongUsage) (e : SongUsage)
    (h : ∀ r ∈ rs, r.used_date ≤ e.used_date) :
    calculate_familiarity_score now rs ≤ calculate_familiarity_score now (e :: rs) := by
  unfold calculate_familiarity_score
  have hne : ¬((e :: rs).take 20).isEmpty := by
    rw [show (e :: rs).take 20 = e :: rs.take 19 from rfl]
    simp
  rw [if_neg hne]
  by_cases hrs : (rs.take 20).isEmpty
  · rw [if_pos hrs]
    apply le_min
    · have := roundTo1_nonneg (raw_total_score_nonneg now (e :: rs))
      linarith
    · norm_num
  · rw [if_neg hrs]
    exact min_le_min (roundTo1_mono (raw_total_score_le_new_event now e rs h)) le_rfl

/-- Witness for C5 at a concrete input: one existing event from yesterday,
one new event from today. -/
theorem familiarity_score_monotone_new_event_witness :
    calculate_familiarity_score 0 [⟨-1, "worship", none⟩]
      ≤ calculate_familiarity_score 0
          (⟨0, "worship", none⟩ :: [⟨-1, "worship", none⟩]) :=
  familiarity_score_monotone_new_event 0 [⟨-1, "worship", none⟩] ⟨0, "worship", none⟩
    (by decide)

/-- C2: the familiarity score computed by the code equals the specification's
reference formula `min(round(sum of exp(-days_ago/86.4), 1), 10.0)` over the
most recent at-most-20 usage events, and a song with zero usage events scores
exactly 0.0. -/
theorem familiarity_score_matches_reference_formula :
    (∀ (now : ℤ) (usage_records : List SongUsage),
        calculate_familiarity_score now usage_records
          = familiarity_reference_formula now usage_records)
      ∧ ∀ now : ℤ, calculate_familiarity_score now [] = 0.0 := by
  constructor
  · intro now rs
    unfold calculate_familiarity_score familiarity_reference_formula raw_total_score
    by_cases h : (rs.take 20).isEmpty
    · rw [if_pos h]
      rw [List.isEmpty_iff] at h
      rw [h]
      simp only [List.map_nil, List.sum_nil, roundTo1_zero]
      norm_num
    · rw [if_neg h]
      congr 2
      apply congrArg List.sum
      apply List.map_congr_left
      intro u _
      unfold decay_factor
      norm_num
  · intro now
    simp [calculate_familiarity_score]

theorem raw_total_score_eq_of_dates (now : ℤ) (rs1 rs2 : List SongUsage)
    (h : rs1.map SongUsage.used_date = rs2.map SongUsage.used_date) :
    raw_total_score now rs1 = raw_total_score now rs2 := by
  unfold raw_total_score
  have key : ∀ rs : List SongUsage,
      ((rs.take 20).map (fun u => 1.0 * decay_factor (now - u.used_date))).sum
        = (((rs.map SongUsage.used_date).take 20).map
            (fun d => 1.0 * decay_factor (now - d))).sum := by
    intro rs
    rw [← List.map_take, List.map_map]
    rfl
  rw [key, key, h]

/-- C10 (amended): the familiarity score is a function of the usage records'
timestamps only (`service_type` and `notes` are never read, so the
`feedback_negative` record contributes the same positive decay term as
ordinary usage); recording the thumbs-down micro-record never lowers the
score when no existing record is future-dated; and the raw pre-rounding sum
strictly increases whenever fewer than 20 records exist (with a full
20-record window the dropped record can contribute exactly as much, see the
counterexample). -/
theorem familiarity_score_ignores_category :
    (∀ (now : ℤ) (rs1 rs2 : List SongUsage),
        rs1.map SongUsage.used_date = rs2.map SongUsage.used_date →
          calculate_familiarity_score now rs1 = calculate_familiarity_score now rs2)
      ∧ (∀ (now : ℤ) (rs : List SongUsage), (∀ r ∈ rs, r.used_date ≤ now) →
          calculate_familiarity_score now rs
            ≤ calculate_familiarity_score now (feedback_negative_usage now :: rs))
      ∧ ∀ (now : ℤ) (rs : List SongUsage), rs.length < 20 →
          raw_total_score now rs
            < raw_total_score now (feedback_negative_usage now :: rs) := by
  refine ⟨?_, ?_, ?_⟩
  · intro now rs1 rs2 h
    unfold calculate_familiarity_score
    have hlen : rs1.length = rs2.length := by
      have := congrArg List.length h
      simpa using this
    have hemp : (rs1.take 20).isEmpty = (rs2.take 20).isEmpty := by
      rcases rs1 with _ | ⟨a, l⟩ <;> rcases rs2 with _ | ⟨b, m⟩ <;> simp_all
    rw [hemp, raw_total_score_eq_of_dates now rs1 rs2 h]
  · intro now rs h
    exact familiarity_score_monotone_new_event now rs (feedback_negative_usage now) h
  · intro now rs hlen
    unfold raw_total_score
    have hcons : (feedback_negative_usage now :: rs).take 20
        = feedback_negative_usage now :: rs.take 19 := rfl
    rw [hcons, List.map_cons, List.sum_cons]
    have h19 : rs.take 19 = rs := List.take_of_length_le (by omega)
    have h20 : rs.take 20 = rs := List.take_of_length_le (by omega)
    rw [h19, h20]
    have : 0 < 1.0 * decay_factor (now - (feedback_negative_usage now).used_date) := by
      have := decay_factor_pos (now - (feedback_negative_usage now).used_date)
      linarith
    linarith

/-- Witness for the amended C10 at concrete inputs: records differing only in
category labels give equal scores; a thumbs-down on a one-event history does
not lower the score; the raw sum strictly grows on an under-full window. -/
theorem familiarity_score_ignores_category_witness :
    calculate_familiarity_score 0 [⟨0, "worship", none⟩]
        = calculate_familiarity_score 0 [feedback_negative_usage 0]
      ∧ calculate_familiarity_score 0 [⟨-3, "worship", none⟩]
          ≤ calculate_familiarity_score 0
              (feedback_negative_usage 0 :: [⟨-3, "worship", none⟩])
      ∧ raw_total_score 0 [⟨-3, "worship", none⟩]
          < raw_total_score 0 (feedback_negative_usage 0 :: [⟨-3, "worship", none⟩]) :=
  ⟨familiarity_score_ignores_category.1 0 _ _ rfl,
   familiarity_score_ignores_category.2.1 0 _ (by decide),
   familiarity_score_ignores_category.2.2 0 _ (by decide)⟩

/-- C10 counterexample: with twenty same-day usage records already present,
the thumbs-down micro-record does not strictly raise the raw pre-rounding
sum — the twentieth record it pushes out of the window contributed exactly
the same amount, so the claim's "before rounding, strictly raises" fails
here. -/
theorem negative_feedback_strict_raise_counterexample :
    raw_total_score 0
        (feedback_negative_usage 0 :: List.replicate 20 ⟨0, "worship", none⟩)
      = raw_total_score 0 (List.replicate 20 ⟨0, "worship", none⟩) := by
  unfold raw_total_score feedback_negative_usage
  rw [show ((⟨0, "feedback_negative", some "thumbs_down_feedback_-0.1"⟩ :: List.replicate 20
      (⟨0, "worship", none⟩ : SongUsage)).take 20)
      = (⟨0, "feedback_negative", some "thumbs_down_feedback_-0.1"⟩ :: ((List.replicate 20
      (⟨0, "worship", none⟩ : SongUsage)).take 19)) from rfl]
  rw [List.take_replicate, List.take_replicate]
  simp only [List.map_cons, List.map_replicate, List.sum_cons, List.sum_replicate]
  unfold decay_factor
  norm_num [Real.exp_zero]

theorem apply_familiarity_scoring_perm {α β : Type} [LinearOrder β] (score : α → β)
    (songs : List α) : (apply_familiarity_scoring score songs).Perm songs := by
  unfold apply_familiarity_scoring
  have hp := (List.perm_insertionSort (scoring_key_le score) songs.enum).map Prod.snd
  rwa [List.enum_map_snd] at hp

theorem enum_pairwise_fst_lt {α : Type} (l : List α) :
    l.enum.Pairwise (fun x y : ℕ × α => x.1 < y.1) := by
  have h1 : (l.enum.map Prod.fst).Pairwise (fun a b : ℕ => a < b) := by
    rw [List.enum_map_fst]
    exact List.pairwise_lt_range _
  exact List.pairwise_map.mp h1

/-- C8: the ranked output of `_apply_familiarity_scoring` is a permutation of
the resolver's raw candidate list, and the decorated sorted list is ordered
by familiarity score descending with equal-score entries in strictly
increasing original position — a stable tie-break preserving the raw order. -/
theorem ranking_stable {α β : Type} [LinearOrder β] (score : α → β) (songs : List α) :
    (apply_familiarity_scoring score songs).Perm songs
      ∧ ((songs.enum).insertionSort (scoring_key_le score)).Pairwise
          (fun x y : ℕ × α => score y.2 < score x.2 ∨ (score x.2 = score y.2 ∧ x.1 < y.1)) := by
  refine ⟨apply_familiarity_scoring_perm score songs, ?_⟩
  have hsorted : ((songs.enum).insertionSort (scoring_key_le score)).Pairwise
      (scoring_key_le score) :=
    List.sorted_insertionSort (scoring_key_le score) songs.enum
  have hperm : (songs.enum).Perm ((songs.enum).insertionSort (scoring_key_le score)) :=
    (List.perm_insertionSort (scoring_key_le score) songs.enum).symm
  have hne : ((songs.enum).insertionSort (scoring_key_le score)).Pairwise
      (fun x y : ℕ × α => x.1 ≠ y.1) :=
    (hperm.pairwise_iff (fun hab => Ne.symm hab)).mp
      ((enum_pairwise_fst_lt songs).imp fun h => Nat.ne_of_lt h)
  have hand := hsorted.and hne
  apply hand.imp
  intro a b hab
  rcases hab with ⟨hle, hne2⟩
  rcases hle with h | ⟨heq, hn⟩
  · exact Or.inl h
  · exact Or.inr ⟨heq, lt_of_le_of_ne hn hne2⟩

/-- C6: a session is treated as expired exactly when `now - last_activity`
is at least 60 minutes; a session whose last activity is exactly 60 minutes
old is expired (`get_session` returns no session) while one 59 minutes old
is still active. -/
theorem session_ttl_boundary :
    (∀ (now : ℚ) (s : UserSession),
        is_session_expired now s = true ↔ 60 ≤ now - s.last_activity)
      ∧ (get_session 60 [("u", ⟨"u", none, 0, []⟩)] "u").1 = none
      ∧ (get_session 59 [("u", ⟨"u", none, 0, []⟩)] "u").1 = some ⟨"u", none, 0, []⟩ := by
  refine ⟨?_, by with_unfolding_all decide, by with_unfolding_all decide⟩
  intro now s
  unfold is_session_expired session_ttl_minutes
  rw [decide_eq_true_iff]
  constructor <;> intro h <;> linarith

/-- Witness for C6 instantiating the boundary equivalence at 60 minutes. -/
theorem session_ttl_boundary_witness :
    is_session_expired 60 ⟨"u", none, 0, []⟩ = true :=
  (session_ttl_boundary.1 60 ⟨"u", none, 0, []⟩).mpr (by norm_num)

theorem filter_by_key_cases (songs : List DbSong) (kp : String) :
    ((∃ s ∈ songs, s.original_key == some kp) →
        filter_by_key songs kp = songs.filter (fun s => s.original_key == some kp))
      ∧ ((∀ s ∈ songs, ¬(s.original_key == some kp)) → filter_by_key songs kp = songs)
      ∧ (songs ≠ [] → filter_by_key songs kp ≠ []) := by
  unfold filter_by_key
  refine ⟨?_, ?_, ?_⟩
  · intro ⟨s, hs, hk⟩
    have hne : songs.filter (fun s => s.original_key == some kp) ≠ [] := by
      intro hnil
      have := List.filter_eq_nil_iff.mp hnil s hs
      simp [hk] at this
    rw [if_neg (by simpa [List.isEmpty_iff] using hne)]
  · intro h
    have hnil : songs.filter (fun s => s.original_key == some kp) = [] := by
      apply List.filter_eq_nil_iff.mpr
      intro s hs
      simpa using h s hs
    rw [if_pos (by simp [hnil])]
  · intro hne
    by_cases hf : (songs.filter (fun s => s.original_key == some kp)).isEmpty
    · rw [if_pos hf]; exact hne
    · rw [if_neg hf]
      simpa [List.isEmpty_iff] using hf

theorem song_has_key_kp_ne_empty {s : DbSong} {kp : String}
    (h : song_has_key s kp = true) : kp.isEmpty = false := by
  obtain ⟨t, a, ok, b, th, ly, act⟩ := s
  cases ok with
  | none => simp [song_has_key] at h
  | some k =>
    simp only [song_has_key] at h
    unfold keys_match at h
    by_cases he : (k.isEmpty || kp.isEmpty) = true
    · rw [if_pos he] at h
      exact absurd h (by simp)
    · simp only [Bool.or_eq_true] at he
      push_neg at he
      exact Bool.eq_false_iff.mpr (by simpa using he.2)

theorem key_filter_step_cases (songs : List DbSong) (kp : String) :
    ((∃ s ∈ songs, song_has_key s kp = true) →
        key_filter_step songs kp = songs.filter (fun s => song_has_key s kp))
      ∧ ((∀ s ∈ songs, song_has_key s kp = false) → key_filter_step songs kp = songs)
      ∧ (songs ≠ [] → key_filter_step songs kp ≠ []) := by
  unfold key_filter_step filter_songs_by_key
  refine ⟨?_, ?_, ?_⟩
  · intro ⟨s, hs, hk⟩
    have hkp : kp.isEmpty = false := song_has_key_kp_ne_empty hk
    have hsne : songs.isEmpty = false := by
      cases songs with
      | nil => cases hs
      | cons a l => rfl
    rw [hkp, hsne]
    simp only [Bool.or_self, if_false, Bool.false_eq_true]
    have hne : songs.filter (fun s => song_has_key s kp) ≠ [] := by
      intro hnil
      have := List.filter_eq_nil_iff.mp hnil s hs
      simp [hk] at this
    rw [if_neg (by simpa [List.isEmpty_iff] using hne)]
  · intro h
    by_cases hg : kp.isEmpty || songs.isEmpty
    · rw [if_pos hg]
      simp
    · rw [if_neg hg]
      have hnil : songs.filter (fun s => song_has_key s kp) = [] := by
        apply List.filter_eq_nil_iff.mpr
        intro s hs
        simp [h s hs]
      rw [hnil]
      simp
  · intro hne
    by_cases hg : kp.isEmpty || songs.isEmpty
    · rw [if_pos hg]
      by_cases hf : songs.isEmpty
      · exact absurd (List.isEmpty_iff.mp hf) hne
      · rw [if_neg hf]; exact hne
    · rw [if_neg hg]
      by_cases hf : (songs.filter (fun s => song_has_key s kp)).isEmpty
      · rw [if_pos hf]; exact hne
      · rw [if_neg hf]
        simpa [List.isEmpty_iff] using hf

/-- C9: with a key preference, if at least one staged candidate matches the
key then exactly the key-matching candidates are kept, and if the key filter
would eliminate every candidate the unfiltered candidate set is returned
rather than an empty result — both for the database engine's key-filter step
(`search` lines 108-115) and for the enhanced engine's `_filter_by_key`
(lines 188-194). -/
theorem key_filter_leniency :
    (∀ (songs : List DbSong) (kp : String),
        ((∃ s ∈ songs, song_has_key s kp = true) →
            key_filter_step songs kp = songs.filter (fun s => song_has_key s kp))
          ∧ ((∀ s ∈ songs, song_has_key s kp = false) → key_filter_step songs kp = songs)
          ∧ (songs ≠ [] → key_filter_step songs kp ≠ []))
      ∧ ∀ (songs : List DbSong) (kp : String),
          ((∃ s ∈ songs, s.original_key == some kp) →
              filter_by_key songs kp = songs.filter (fun s => s.original_key == some kp))
            ∧ ((∀ s ∈ songs, ¬(s.original_key == some kp)) → filter_by_key songs kp = songs)
            ∧ (songs ≠ [] → filter_by_key songs kp ≠ []) :=
  ⟨key_filter_step_cases, filter_by_key_cases⟩

/-- Witness for C9 at concrete inputs: with one G-key and one A-key song a
G preference keeps exactly the matching song; with only an A-key song the G
preference falls back to the unfiltered list instead of an empty one. -/
theorem key_filter_leniency_witness :
    key_filter_step [⟨"Grace", "ArtistA", some "G", some 72, ["grace"], [], true⟩,
        ⟨"Altar", "ArtistB", some "A", some 70, ["altar-call"], [], true⟩] "G"
      = [⟨"Grace", "ArtistA", some "G", some 72, ["grace"], [], true⟩]
      ∧ filter_by_key [⟨"Altar", "ArtistB", some "A", some 70, ["altar-call"], [], true⟩] "G"
        = [⟨"Altar", "ArtistB", some "A", some 70, ["altar-call"], [], true⟩] := by
  constructor
  · have h := (key_filter_leniency.1 [⟨"Grace", "ArtistA", some "G", some 72, ["grace"], [], true⟩,
      ⟨"Altar", "ArtistB", some "A", some 70, ["altar-call"], [], true⟩] "G").1
      ⟨⟨"Grace", "ArtistA", some "G", some 72, ["grace"], [], true⟩, by decide, by decide⟩
    rw [h]
    decide
  · have h := (key_filter_leniency.2
      [⟨"Altar", "ArtistB", some "A", some 70, ["altar-call"], [], true⟩] "G").2.1 (by decide)
    rw [h]

/-- C3 (amended): in `BotHandler._handle_more_request` a user with no
session record receives the never-searched outcome and a user with an
expired record the distinct session-expired outcome, and the two
user-facing messages differ.  `EnhancedBotHandler._handle_more_request` —
the handler main.py actually instantiates, via create_enhanced_bot_handler
in both of its branches — does NOT make this distinction: see the
counterexample. -/
theorem more_request_absent_vs_expired
    (engine_search : String → List String → Option SearchResult)
    (now : ℚ) (sessions : List (String × UserSession)) (uid : String) :
    (store_lookup sessions uid = none →
        (bot_handle_more engine_search now sessions uid).1 = .never_searched)
      ∧ (∀ s, store_lookup sessions uid = some s → is_session_expired now s = true →
          (bot_handle_more engine_search now sessions uid).1 = .session_expired)
      ∧ MoreOutcome.never_searched ≠ MoreOutcome.session_expired
      ∧ format_no_previous_search_message ≠ format_session_expired_message := by
  refine ⟨?_, ?_, by decide, by decide⟩
  · intro h
    unfold bot_handle_more get_session
    rw [h]
    simp [h]
  · intro s hs hexp
    unfold bot_handle_more get_session
    rw [hs]
    simp [hs, hexp]

/-- Witness for the amended C3 at concrete inputs: an unknown user gets
never-searched; a user whose session is 61 minutes old gets
session-expired. -/
theorem more_request_absent_vs_expired_witness :
    (bot_handle_more (fun _ _ => none) 61 [] "alice").1 = MoreOutcome.never_searched
      ∧ (bot_handle_more (fun _ _ => none) 61
          [("bob", ⟨"bob", none, 0, []⟩)] "bob").1 = MoreOutcome.session_expired :=
  ⟨(more_request_absent_vs_expired (fun _ _ => none) 61 [] "alice").1 (by decide),
   (more_request_absent_vs_expired (fun _ _ => none) 61
      [("bob", ⟨"bob", none, 0, []⟩)] "bob").2.1 ⟨"bob", none, 0, []⟩ (by decide)
      (by with_unfolding_all decide)⟩

/-- C3 counterexample: through `EnhancedBotHandler._handle_more_request`
(with no conversation context entry) a user who never searched and a user
whose session expired 61 minutes ago receive the SAME no-previous-search
outcome — the two cases are not distinguishable there, so the claim fails
for this handler. -/
theorem more_request_absent_vs_expired_counterexample :
    (enhanced_handle_more (fun _ _ _ => none) 61 [] [] "alice" "more").1
        = EnhancedMoreOutcome.no_previous_search
      ∧ (enhanced_handle_more (fun _ _ _ => none) 61
            [("bob", ⟨"bob",
              some ⟨[⟨"Trust", "ArtistT", some "G", some 70, ["faith"], [], true⟩],
                "faith", "faith"⟩, 0, ["Trust"]⟩)] [] "bob" "more").1
        = EnhancedMoreOutcome.no_previous_search := by
  constructor
  · with_unfolding_all decide
  · with_unfolding_all decide

theorem theme_stage_spec (catalog : List DbSong) (excluded : List String) :
    ∀ (themes : List String) (th : String) (songs : List DbSong),
      theme_stage catalog excluded themes = some (th, songs) →
        (∃ pre post, themes = pre ++ th :: post
            ∧ ∀ t ∈ pre, (search_by_theme catalog t 10).isEmpty = true)
          ∧ (search_by_theme catalog th 10).isEmpty = false
          ∧ songs = (search_by_theme catalog th 10).filter
              (fun s => !excluded.contains s.title) := by
  intro themes
  induction themes with
  | nil => intro th songs h; simp [theme_stage] at h
  | cons t rest ih =>
    intro th songs h
    unfold theme_stage at h
    by_cases he : (search_by_theme catalog t 10).isEmpty
    · rw [if_pos he] at h
      obtain ⟨⟨pre, post, heq, hpre⟩, h2, h3⟩ := ih th songs h
      refine ⟨⟨t :: pre, post, by rw [heq]; rfl, ?_⟩, h2, h3⟩
      intro x hx
      rcases List.mem_cons.mp hx with rfl | hx
      · exact he
      · exact hpre x hx
    · rw [if_neg he] at h
      have h1 := h
      injection h1 with h1
      obtain ⟨rfl, rfl⟩ := Prod.mk.injEq .. ▸ Prod.ext_iff.mp h1
      refine ⟨⟨[], rest, rfl, by intro x hx; cases hx⟩, by simpa using he, rfl⟩

theorem db_stage_candidates_of_theme_stage (catalog : List DbSong) (themes : List String)
    (query : String) (excluded : List String) (th : String) (songs : List DbSong)
    (h : theme_stage catalog excluded themes = some (th, songs))
    (hne : songs.isEmpty = false) :
    db_stage_candidates catalog themes query excluded = (songs, some th) := by
  unfold db_stage_candidates db_theme_step db_text_step db_lyrics_step
  rw [h]
  simp [hne]

theorem theme_stage_none_of_all_empty (catalog : List DbSong) (excluded : List String) :
    ∀ themes : List String,
      (∀ t ∈ themes, (search_by_theme catalog t 10).isEmpty = true) →
      theme_stage catalog excluded themes = none := by
  intro themes
  induction themes with
  | nil => intro _; rfl
  | cons t rest ih =>
    intro h
    unfold theme_stage
    rw [if_pos (h t (List.mem_cons_self t rest))]
    exact ih (fun x hx => h x (List.mem_cons_of_mem t hx))

/-- C4 (amended): in `DatabaseRecommendationEngine.search` the theme loop is
first-theme-wins — when it succeeds, the matched theme is the first theme
whose theme query has any matches, the candidate list is exactly that
theme's matches minus the excluded titles, every candidate matches that
first theme (no song matched only by a later theme is included), and the
final result draws its songs from those candidates only.
`EnhancedRecommendationEngine._handle_theme_search` instead unions matches
across all themes — see the counterexample. -/
theorem first_theme_wins {β : Type} [LinearOrder β] (catalog : List DbSong)
    (score : DbSong → β) (excluded : List String) (themes : List String)
    (th : String) (songs : List DbSong)
    (h : theme_stage catalog excluded themes = some (th, songs)) :
    (∃ pre post, themes = pre ++ th :: post
        ∧ ∀ t ∈ pre, (search_by_theme catalog t 10).isEmpty = true)
      ∧ (search_by_theme catalog th 10).isEmpty = false
      ∧ songs = (search_by_theme catalog th 10).filter
          (fun s => !excluded.contains s.title)
      ∧ (∀ s ∈ songs, s ∈ search_by_theme catalog th 10)
      ∧ (songs ≠ [] → ∀ query, ∃ r,
          db_search catalog score themes none query excluded = some r
            ∧ ∀ s ∈ r.songs, s ∈ songs) := by
  obtain ⟨hfirst, hne, heq⟩ := theme_stage_spec catalog excluded themes th songs h
  refine ⟨hfirst, hne, heq, ?_, ?_⟩
  · intro s hs
    rw [heq] at hs
    exact (List.mem_filter.mp hs).1
  · intro hse query
    have hse2 : songs.isEmpty = false := by
      cases songs with
      | nil => exact absurd rfl hse
      | cons a l => rfl
    refine ⟨SearchResult.mk ((apply_familiarity_scoring score songs).take 5)
      (if th.isEmpty then query else th) (if th.isEmpty then query else th), ?_, ?_⟩
    · unfold db_search
      rw [db_stage_candidates_of_theme_stage catalog themes query excluded th songs h hse2]
      simp [hse2, db_key_step, db_result_label]
    · intro s hs
      have hs2 : s ∈ apply_familiarity_scoring score songs :=
        List.mem_of_mem_take hs
      exact (apply_familiarity_scoring_perm score songs).subset hs2

/-- Witness for the amended C4 at concrete inputs: with themes
`["zeta", "alpha"]` where only `alpha` matches, the candidates come from
`alpha` and the search result stays inside them. -/
theorem first_theme_wins_witness :
    ((∃ pre post, ["zeta", "alpha"] = pre ++ "alpha" :: post
        ∧ ∀ t ∈ pre, (search_by_theme
            [⟨"Alpha", "ArtistA", some "G", some 70, ["alpha"], [], true⟩] t 10).isEmpty = true)
      ∧ (search_by_theme
          [⟨"Alpha", "ArtistA", some "G", some 70, ["alpha"], [], true⟩] "alpha" 10).isEmpty = false
      ∧ ([⟨"Alpha", "ArtistA", some "G", some 70, ["alpha"], [], true⟩] : List DbSong)
          = (search_by_theme
              [⟨"Alpha", "ArtistA", some "G", some 70, ["alpha"], [], true⟩] "alpha" 10).filter
              (fun s => !([] : List String).contains s.title)
      ∧ (∀ s ∈ ([⟨"Alpha", "ArtistA", some "G", some 70, ["alpha"], [], true⟩] : List DbSong),
          s ∈ search_by_theme
            [⟨"Alpha", "ArtistA", some "G", some 70, ["alpha"], [], true⟩] "alpha" 10)
      ∧ (([⟨"Alpha", "ArtistA", some "G", some 70, ["alpha"], [], true⟩] : List DbSong) ≠ []
          → ∀ query, ∃ r,
          db_search [⟨"Alpha", "ArtistA", some "G", some 70, ["alpha"], [], true⟩]
              (fun _ => (0 : ℕ)) ["zeta", "alpha"] none query [] = some r
            ∧ ∀ s ∈ r.songs,
                s ∈ ([⟨"Alpha", "ArtistA", some "G", some 70, ["alpha"], [], true⟩] : List DbSong))) :=
  first_theme_wins [⟨"Alpha", "ArtistA", some "G", some 70, ["alpha"], [], true⟩]
    (fun _ => (0 : ℕ)) [] ["zeta", "alpha"] "alpha"
    [⟨"Alpha", "ArtistA", some "G", some 70, ["alpha"], [], true⟩] (by decide)

/-- C4 counterexample: in `EnhancedRecommendationEngine._handle_theme_search`
with two themes that each match a different catalog song, the candidate list
contains the song matched only by the SECOND theme — the matches are unioned
across themes rather than stopping at the first matching theme. -/
theorem first_theme_wins_counterexample :
    handle_theme_search
        [⟨"Alpha", "ArtistA", some "G", some 70, ["alpha"], [], true⟩,
         ⟨"Beta", "ArtistB", some "A", some 71, ["beta"], [], true⟩]
        (fun _ => (0 : ℕ)) { themes := ["alpha", "beta"], raw_query := "q" } []
      = some ⟨[⟨"Alpha", "ArtistA", some "G", some 70, ["alpha"], [], true⟩,
               ⟨"Beta", "ArtistB", some "A", some 71, ["beta"], [], true⟩],
              "alpha, beta", "alpha, beta"⟩
      ∧ ¬(⟨"Beta", "ArtistB", some "A", some 71, ["beta"], [], true⟩ : DbSong)
          ∈ search_by_theme
            [⟨"Alpha", "ArtistA", some "G", some 70, ["alpha"], [], true⟩,
             ⟨"Beta", "ArtistB", some "A", some 71, ["beta"], [], true⟩] "alpha" 10
      ∧ search_by_theme
          [⟨"Alpha", "ArtistA", some "G", some 70, ["alpha"], [], true⟩,
           ⟨"Beta", "ArtistB", some "A", some 71, ["beta"], [], true⟩] "alpha" 10 ≠ [] := by
  refine ⟨?_, by decide, by decide⟩
  decide

/-- C7: with an active session whose last search returned `n` songs, a
positional feedback message with position `p` is accepted — resolving to the
`p`-th song of the last search's list — exactly when `1 ≤ p ≤ n`; positions
`0`, `n+1` and every negative value (whose digit-only pattern never parses)
are rejected with the invalid-feedback message, and rejection leaves the
session store and the feedback log unchanged. -/
theorem feedback_range_validation (catalog : List DbSong) (now : ℚ)
    (sessions : List (String × UserSession)) (feedback_log : List FeedbackLogEntry)
    (uid : String) (s : UserSession) (sr : SearchResult) (p : ℤ)
    (hget : get_session now sessions uid = (some s, sessions))
    (hls : s.last_search = some sr) :
    ((p < 1 ∨ (sr.songs.length : ℤ) < p) →
        bot_handle_feedback catalog now sessions feedback_log uid
            (parse_feedback_position p)
          = (.invalid, sessions, feedback_log))
      ∧ (1 ≤ p → p ≤ (sr.songs.length : ℤ) →
          ∃ song, sr.songs[p.toNat - 1]? = some song
            ∧ (bot_handle_feedback catalog now sessions feedback_log uid
                (parse_feedback_position p)).1 = .confirmed p.toNat song.title) := by
  constructor
  · intro hrej
    by_cases hp : 0 ≤ p
    · have hparse : parse_feedback_position p = some p.toNat := by
        unfold parse_feedback_position
        rw [if_pos hp]
      rw [hparse]
      unfold bot_handle_feedback
      have hcond : (decide (p.toNat < 1) || decide (sr.songs.length < p.toNat)) = true := by
        rcases hrej with h1 | h1
        · have : p = 0 := by omega
          subst this
          simp
        · have : sr.songs.length < p.toNat := by omega
          simp [this]
      simp only [hget, hls, hcond, if_true]
    · have hparse : parse_feedback_position p = none := by
        unfold parse_feedback_position
        rw [if_neg hp]
      rw [hparse]
      unfold bot_handle_feedback
      simp only [hget, hls]
  · intro h1 h2
    have hparse : parse_feedback_position p = some p.toNat := by
      unfold parse_feedback_position
      rw [if_pos (by omega)]
    have hidx : p.toNat - 1 < sr.songs.length := by omega
    refine ⟨sr.songs[p.toNat - 1], List.getElem?_eq_getElem hidx, ?_⟩
    rw [hparse]
    unfold bot_handle_feedback
    have hcond : (decide (p.toNat < 1) || decide (sr.songs.length < p.toNat)) = false := by
      have hp1 : 1 ≤ p.toNat := by omega
      have hp2 : p.toNat ≤ sr.songs.length := by omega
      simp only [Bool.or_eq_false_iff, decide_eq_false_iff_not]
      omega
    simp only [hget, hls, hcond, Bool.false_eq_true, if_false,
      List.getElem?_eq_getElem hidx]

/-- Witness for C7 at a concrete input: a three-song last search rejects
positions 0, 4 and -1 without touching any state, and accepts position 2,
resolving to the second song. -/
theorem feedback_range_validation_witness :
    bot_handle_feedback [] 0 c7_store [] "u" (parse_feedback_position 0)
        = (.invalid, c7_store, [])
      ∧ bot_handle_feedback [] 0 c7_store [] "u" (parse_feedback_position 4)
        = (.invalid, c7_store, [])
      ∧ bot_handle_feedback [] 0 c7_store [] "u" (parse_feedback_position (-1))
        = (.invalid, c7_store, [])
      ∧ ∃ song, c7_result.songs[(2 : ℤ).toNat - 1]? = some song
          ∧ (bot_handle_feedback [] 0 c7_store [] "u" (parse_feedback_position 2)).1
            = .confirmed (2 : ℤ).toNat song.title := by
  have hget : get_session 0 c7_store "u" = (some c7_session, c7_store) := by
    with_unfolding_all decide
  have hls : c7_session.last_search = some c7_result := rfl
  refine ⟨?_, ?_, ?_, ?_⟩
  · exact (feedback_range_validation [] 0 c7_store [] "u" c7_session c7_result 0
      hget hls).1 (by omega)
  · exact (feedback_range_validation [] 0 c7_store [] "u" c7_session c7_result 4
      hget hls).1 (by right; norm_num [c7_result])
  · exact (feedback_range_validation [] 0 c7_store [] "u" c7_session c7_result (-1)
      hget hls).1 (by omega)
  · exact (feedback_range_validation [] 0 c7_store [] "u" c7_session c7_result 2
      hget hls).2 (by omega) (by norm_num [c7_result])

theorem store_lookup_nil {σ : Type} (uid : String) :
    store_lookup ([] : List (String × σ)) uid = none := rfl

theorem store_lookup_erase_self {σ : Type} (st : List (String × σ)) (uid : String) :
    store_lookup (store_erase st uid) uid = none := by
  unfold store_lookup store_erase
  have h : st.find? (fun p => p.1 == uid) |>.isSome → True := fun _ => trivial
  have : (st.filter (fun p => p.1 != uid)).find? (fun p => p.1 == uid) = none := by
    apply List.find?_eq_none.mpr
    intro x hx
    have := (List.mem_filter.mp hx).2
    simp only [bne_iff_ne, ne_eq] at this
    simp [this]
  rw [this]

theorem store_lookup_update_self {σ : Type} (uid : String) (v : σ) :
    ∀ (st : List (String × σ)) (s : σ), store_lookup st uid = some s →
      store_lookup (store_update st uid v) uid = some v := by
  intro st
  induction st with
  | nil => intro s h; simp [store_lookup] at h
  | cons a st ih =>
    intro s h
    by_cases ha : (a.1 == uid) = true
    · unfold store_update
      rw [List.map_cons, if_pos ha]
      unfold store_lookup
      rw [List.find?_cons_of_pos _ (by simp)]
    · unfold store_lookup at h
      rw [List.find?_cons_of_neg _ (by simpa using ha)] at h
      unfold store_update
      rw [List.map_cons, if_neg ha]
      unfold store_lookup
      rw [List.find?_cons_of_neg _ (by simpa using ha)]
      exact ih s h

theorem dedup_by_title_subset : ∀ (l : List DbSong) (seen : List String),
    ∀ s ∈ dedup_by_title l seen, s ∈ l := by
  intro l
  induction l with
  | nil => intro seen s hs; cases hs
  | cons a l ih =>
    intro seen s hs
    unfold dedup_by_title at hs
    by_cases hc : (seen.contains a.title) = true
    · rw [if_pos hc] at hs
      exact List.mem_cons_of_mem a (ih seen s hs)
    · rw [if_neg hc] at hs
      rcases List.mem_cons.mp hs with rfl | hs
      · exact List.mem_cons_self _ _
      · exact List.mem_cons_of_mem a (ih (a.title :: seen) s hs)

theorem dedup_by_title_not_seen : ∀ (l : List DbSong) (seen : List String),
    ∀ s ∈ dedup_by_title l seen, (seen.contains s.title) = false := by
  intro l
  induction l with
  | nil => intro seen s hs; cases hs
  | cons a l ih =>
    intro seen s hs
    unfold dedup_by_title at hs
    by_cases hc : (seen.contains a.title) = true
    · rw [if_pos hc] at hs
      exact ih seen s hs
    · rw [if_neg hc] at hs
      rcases List.mem_cons.mp hs with rfl | hs
      · exact Bool.eq_false_iff.mpr hc
      · have := ih (a.title :: seen) s hs
        simp only [List.contains_cons, Bool.or_eq_false_iff] at this
        exact this.2

theorem dedup_by_title_titles_nodup : ∀ (l : List DbSong) (seen : List String),
    ((dedup_by_title l seen).map DbSong.title).Nodup := by
  intro l
  induction l with
  | nil => intro seen; simp [dedup_by_title]
  | cons a l ih =>
    intro seen
    unfold dedup_by_title
    by_cases hc : (seen.contains a.title) = true
    · rw [if_pos hc]
      exact ih seen
    · rw [if_neg hc]
      rw [List.map_cons]
      apply List.nodup_cons.mpr
      refine ⟨?_, ih (a.title :: seen)⟩
      intro hmem
      obtain ⟨s, hs, ht⟩ := List.mem_map.mp hmem
      have := dedup_by_title_not_seen l (a.title :: seen) s hs
      simp only [List.contains_cons, Bool.or_eq_false_iff] at this
      have h1 := this.1
      rw [ht] at h1
      simp at h1

/-- The titles of a search result built as
`(apply_familiarity_scoring score (candidates.take 10)).take 5` stay
duplicate-free and inside the candidate set. -/
theorem scored_take_titles_ok {β : Type} [LinearOrder β] (score : DbSong → β)
    (candidates : List DbSong) (excluded : List String)
    (hnd : (candidates.map DbSong.title).Nodup)
    (hex : ∀ s ∈ candidates, s.title ∉ excluded) :
    (((apply_familiarity_scoring score (candidates.take 10)).take 5).map DbSong.title).Nodup
      ∧ ∀ t ∈ ((apply_familiarity_scoring score (candidates.take 10)).take 5).map DbSong.title,
          t ∉ excluded := by
  have hperm : (apply_familiarity_scoring score (candidates.take 10)).Perm (candidates.take 10) :=
    apply_familiarity_scoring_perm score (candidates.take 10)
  constructor
  · have h10 : ((candidates.take 10).map DbSong.title).Nodup := by
      rw [List.map_take]
      exact hnd.sublist (List.take_sublist 10 _)
    have hsc : ((apply_familiarity_scoring score (candidates.take 10)).map DbSong.title).Nodup :=
      ((hperm.map DbSong.title).nodup_iff).mpr h10
    rw [List.map_take]
    exact hsc.sublist (List.take_sublist 5 _)
  · intro t ht
    obtain ⟨s, hs, rfl⟩ := List.mem_map.mp ht
    have hs1 : s ∈ apply_familiarity_scoring score (candidates.take 10) :=
      List.mem_of_mem_take hs
    have hs2 : s ∈ candidates.take 10 := hperm.subset hs1
    exact hex s (List.mem_of_mem_take hs2)

theorem finish_search_titles {β : Type} [LinearOrder β] (score : DbSong → β)
    (matching : List DbSong) (mt th : String) (excluded : List String) (r : SearchResult)
    (h : finish_search score matching mt th = some r)
    (hex : ∀ s ∈ matching, s.title ∉ excluded) :
    (r.songs.map DbSong.title).Nodup ∧ ∀ t ∈ r.songs.map DbSong.title, t ∉ excluded := by
  unfold finish_search at h
  split at h
  · exact absurd h (by simp)
  · rw [Option.some.injEq] at h
    subst h
    apply scored_take_titles_ok
    · exact dedup_by_title_titles_nodup _ _
    · intro s hs
      exact hex s (dedup_by_title_subset _ [] s hs)

theorem handle_theme_search_titles {β : Type} [LinearOrder β] (catalog : List DbSong)
    (score : DbSong → β) (pq : ParsedQuery) (excluded : List String) (r : SearchResult)
    (h : handle_theme_search catalog score pq excluded = some r) :
    (r.songs.map DbSong.title).Nodup ∧ ∀ t ∈ r.songs.map DbSong.title, t ∉ excluded := by
  unfold handle_theme_search at h
  refine finish_search_titles score _ _ _ excluded r h ?_
  intro s hs
  by_cases hexq : excluded.isEmpty = true
  · have he : excluded = [] := List.isEmpty_iff.mp hexq
    rw [he]
    exact List.not_mem_nil s.title
  · rw [if_neg hexq] at hs
    have := (List.mem_filter.mp hs).2
    simpa using this

theorem handle_similarity_search_titles {β : Type} [LinearOrder β] (catalog : List DbSong)
    (score : DbSong → β) (pq : ParsedQuery) (excluded : List String) (r : SearchResult)
    (h : handle_similarity_search catalog score pq excluded = some r) :
    (r.songs.map DbSong.title).Nodup ∧ ∀ t ∈ r.songs.map DbSong.title, t ∉ excluded := by
  unfold handle_similarity_search at h
  rcases heq : search_by_text catalog (pq.similarity_song.getD "") 1 with _ | ⟨ref_song, rest⟩
  · rw [heq] at h
    exact handle_theme_search_titles catalog score pq excluded r h
  · rw [heq] at h
    refine finish_search_titles score _ _ _ excluded r h ?_
    intro s hs
    have hf := (List.mem_filter.mp hs).2
    simp only [Bool.not_eq_eq_eq_not, Bool.not_true] at hf
    have hnm : s.title ∉ excluded ++ [ref_song.title] := by simpa using hf
    intro hc
    exact hnm (List.mem_append.mpr (Or.inl hc))


theorem search_by_theme_sublist (catalog : List DbSong) (t : String) (n : ℕ) :
    (search_by_theme catalog t n).Sublist catalog :=
  (List.take_sublist _ _).trans (List.filter_sublist _)

theorem search_by_text_sublist (catalog : List DbSong) (q : String) (n : ℕ) :
    (search_by_text catalog q n).Sublist catalog :=
  (List.take_sublist _ _).trans (List.filter_sublist _)

theorem search_lyrics_songs_sublist (catalog : List DbSong) (q : String) (n : ℕ) :
    (search_lyrics_songs catalog q n).Sublist catalog :=
  (List.take_sublist _ _).trans (List.filter_sublist _)

theorem excl_filter_ok (catalog l : List DbSong) (excluded : List String)
    (hl : l.Sublist catalog) :
    (l.filter (fun s => !excluded.contains s.title)).Sublist catalog
      ∧ ∀ s ∈ l.filter (fun s => !excluded.contains s.title), s.title ∉ excluded := by
  constructor
  · exact (List.filter_sublist l).trans hl
  · intro s hs
    have := (List.mem_filter.mp hs).2
    simpa using this

theorem db_stage_candidates_ok (catalog : List DbSong) (themes : List String)
    (query : String) (excluded : List String) :
    (db_stage_candidates catalog themes query excluded).1.Sublist catalog
      ∧ ∀ s ∈ (db_stage_candidates catalog themes query excluded).1,
          s.title ∉ excluded := by
  have h1 : (db_theme_step catalog themes excluded).1.Sublist catalog
      ∧ ∀ s ∈ (db_theme_step catalog themes excluded).1, s.title ∉ excluded := by
    unfold db_theme_step
    rcases hst : theme_stage catalog excluded themes with _ | ⟨th, songs⟩
    · exact ⟨List.nil_sublist catalog, by intro s hs; cases hs⟩
    · obtain ⟨_, _, heq⟩ := theme_stage_spec catalog excluded themes th songs hst
      rw [heq]
      exact excl_filter_ok catalog _ excluded (search_by_theme_sublist catalog th 10)
  have h2 : (db_text_step catalog query excluded (db_theme_step catalog themes excluded)).1.Sublist
        catalog
      ∧ ∀ s ∈ (db_text_step catalog query excluded (db_theme_step catalog themes excluded)).1,
          s.title ∉ excluded := by
    unfold db_text_step
    split
    · exact excl_filter_ok catalog _ excluded (search_by_text_sublist catalog query 10)
    · exact h1
  unfold db_stage_candidates db_lyrics_step
  split
  · exact excl_filter_ok catalog _ excluded (search_lyrics_songs_sublist catalog query 5)
  · exact h2

theorem filter_songs_by_key_sublist (songs : List DbSong) (kp : String) :
    (filter_songs_by_key songs kp).Sublist songs := by
  unfold filter_songs_by_key
  split
  · exact List.Sublist.refl songs
  · exact List.filter_sublist songs

theorem db_key_step_sublist (M : List DbSong) (mt kp : Option String) :
    (db_key_step M mt kp).1.Sublist M := by
  rcases kp with _ | k
  · exact List.Sublist.refl M
  · simp only [db_key_step]
    by_cases hk : k.isEmpty = true
    · rw [if_pos hk]
    · rw [if_neg hk]
      by_cases hf : (filter_songs_by_key M k).isEmpty = true
      · rw [if_pos hf]
      · rw [if_neg hf]
        exact filter_songs_by_key_sublist M k

theorem scored_take5_titles_ok {β : Type} [LinearOrder β] (score : DbSong → β)
    (candidates : List DbSong) (excluded : List String)
    (hnd : (candidates.map DbSong.title).Nodup)
    (hex : ∀ s ∈ candidates, s.title ∉ excluded) :
    (((apply_familiarity_scoring score candidates).take 5).map DbSong.title).Nodup
      ∧ ∀ t ∈ ((apply_familiarity_scoring score candidates).take 5).map DbSong.title,
          t ∉ excluded := by
  have hperm := apply_familiarity_scoring_perm score candidates
  constructor
  · have hsc := ((hperm.map DbSong.title).nodup_iff).mpr hnd
    rw [List.map_take]
    exact hsc.sublist (List.take_sublist 5 _)
  · intro t ht
    obtain ⟨s, hs, rfl⟩ := List.mem_map.mp ht
    exact hex s (hperm.subset (List.mem_of_mem_take hs))

theorem db_search_titles {β : Type} [LinearOrder β] (catalog : List DbSong)
    (score : DbSong → β) (themes : List String) (kp : Option String)
    (query : String) (excluded : List String) (r : SearchResult)
    (hcat : (catalog.map DbSong.title).Nodup)
    (h : db_search catalog score themes kp query excluded = some r) :
    (r.songs.map DbSong.title).Nodup ∧ ∀ t ∈ r.songs.map DbSong.title, t ∉ excluded := by
  obtain ⟨hsub, hex⟩ := db_stage_candidates_ok catalog themes query excluded
  unfold db_search at h
  split at h
  · exact absurd h (by simp)
  · rw [Option.some.injEq] at h
    subst h
    have hkss := db_key_step_sublist (db_stage_candidates catalog themes query excluded).1
      (db_stage_candidates catalog themes query excluded).2 kp
    apply scored_take5_titles_ok
    · exact (hcat.sublist ((hkss.trans hsub).map DbSong.title))
    · intro s hs
      exact hex s (hkss.subset hs)

theorem db_engine_search_titles {β : Type} [LinearOrder β] (catalog : List DbSong)
    (score : DbSong → β) (key_extract : String → Option String)
    (query : String) (excluded : List String) (r : SearchResult)
    (hcat : (catalog.map DbSong.title).Nodup)
    (h : db_engine_search catalog score key_extract query excluded = some r) :
    (r.songs.map DbSong.title).Nodup ∧ ∀ t ∈ r.songs.map DbSong.title, t ∉ excluded :=
  db_search_titles catalog score _ _ query excluded r hcat h

theorem search_with_parsed_query_titles {β : Type} [LinearOrder β] (catalog : List DbSong)
    (score : DbSong → β) (pq : ParsedQuery) (excluded : List String) (r : SearchResult)
    (h : search_with_parsed_query catalog score pq excluded = some r) :
    (r.songs.map DbSong.title).Nodup ∧ ∀ t ∈ r.songs.map DbSong.title, t ∉ excluded := by
  unfold search_with_parsed_query at h
  split at h
  · exact handle_theme_search_titles catalog score pq excluded r h
  · split at h
    · split at h
      · exact handle_theme_search_titles catalog score pq excluded r h
      · exact handle_similarity_search_titles catalog score pq excluded r h
    · exact handle_theme_search_titles catalog score pq excluded r h

theorem natural_search_result_titles {β : Type} [LinearOrder β] (catalog : List DbSong)
    (score : DbSong → β) (key_extract : String → Option String) (pq : ParsedQuery)
    (excluded : List String) (r : SearchResult)
    (hcat : (catalog.map DbSong.title).Nodup)
    (h : natural_search_result catalog score key_extract pq excluded = some r) :
    (r.songs.map DbSong.title).Nodup ∧ ∀ t ∈ r.songs.map DbSong.title, t ∉ excluded := by
  unfold natural_search_result at h
  split at h
  · exact db_engine_search_titles catalog score key_extract _ excluded r hcat h
  · exact search_with_parsed_query_titles catalog score pq excluded r h

theorem store_lookup_cons_self {σ : Type} (uid : String) (v : σ)
    (st : List (String × σ)) : store_lookup ((uid, v) :: st) uid = some v := by
  unfold store_lookup
  rw [List.find?_cons_of_pos _ (by simp)]

theorem get_session_absent (now : ℚ) (st : List (String × UserSession)) (uid : String)
    (h : store_lookup st uid = none) : get_session now st uid = (none, st) := by
  unfold get_session
  rw [h]

theorem get_session_active (now : ℚ) (st : List (String × UserSession)) (uid : String)
    (s : UserSession) (h : store_lookup st uid = some s)
    (hexp : is_session_expired now s = false) :
    get_session now st uid = (some s, st) := by
  unfold get_session
  rw [h]
  simp [hexp]

theorem get_session_expired_case (now : ℚ) (st : List (String × UserSession))
    (uid : String) (s : UserSession) (h : store_lookup st uid = some s)
    (hexp : is_session_expired now s = true) :
    get_session now st uid = (none, store_erase st uid) := by
  unfold get_session
  rw [h]
  simp [hexp]

theorem add_returned_active (now : ℚ) (st : List (String × UserSession)) (uid : String)
    (s : UserSession) (titles : List String) (h : store_lookup st uid = some s)
    (hexp : is_session_expired now s = false) :
    add_returned_songs_to_session now st uid titles
      = store_update st uid { s with returned_songs := s.returned_songs ++ titles } := by
  unfold add_returned_songs_to_session
  rw [get_session_active now st uid s h hexp]

theorem update_activity_active (now : ℚ) (st : List (String × UserSession))
    (uid : String) (s : UserSession) (h : store_lookup st uid = some s)
    (hexp : is_session_expired now s = false) :
    update_session_activity now st uid
      = (some { s with last_activity := now },
         store_update st uid { s with last_activity := now }) := by
  unfold update_session_activity
  rw [get_session_active now st uid s h hexp]

theorem handle_natural_search_empty_store {β : Type} [LinearOrder β]
    (catalog : List DbSong) (score : DbSong → β) (key_extract : String → Option String)
    (t0 : ℚ) (uid : String) (pq : ParsedQuery)
    (res : Option SearchResult) (st : List (String × UserSession))
    (hcat : (catalog.map DbSong.title).Nodup)
    (h : handle_natural_search catalog score key_extract t0 [] uid pq = (res, st)) :
    (res = none → store_lookup st uid = none)
      ∧ ∀ r, res = some r →
          (r.songs.map DbSong.title).Nodup
            ∧ store_lookup st uid = some ⟨uid, some r, t0, r.songs.map DbSong.title⟩ := by
  have hdef : handle_natural_search catalog score key_extract t0 [] uid pq
      = (match natural_search_result catalog score key_extract pq [] with
         | none => (none, ([] : List (String × UserSession)))
         | some r =>
           if r.songs.isEmpty then (none, ([] : List (String × UserSession)))
           else (some r, (create_or_update_session t0 [] uid (some r)).2)) := rfl
  rw [hdef] at h
  rcases hr : natural_search_result catalog score key_extract pq [] with _ | r
  · rw [hr] at h
    injection h with h1 h2
    subst h1
    subst h2
    exact ⟨(fun _ => rfl), (fun r hr2 => by cases hr2)⟩
  · rw [hr] at h
    replace h : (if r.songs.isEmpty = true then (none, ([] : List (String × UserSession)))
        else (some r, (create_or_update_session t0 [] uid (some r)).2)) = (res, st) := h
    by_cases hre : r.songs.isEmpty = true
    · rw [if_pos hre] at h
      injection h with h1 h2
      subst h1
      subst h2
      exact ⟨(fun _ => rfl), (fun r hr2 => by cases hr2)⟩
    · rw [if_neg hre] at h
      injection h with h1 h2
      subst h1
      subst h2
      refine ⟨(fun hcontra => by cases hcontra), ?_⟩
      intro r2 hr2
      rw [Option.some.injEq] at hr2
      subst hr2
      constructor
      · exact (natural_search_result_titles catalog score key_extract pq [] r hcat hr).1
      · have hcr : create_or_update_session t0 ([] : List (String × UserSession)) uid (some r)
            = (⟨uid, some r, t0, r.songs.map DbSong.title⟩,
               [(uid, ⟨uid, some r, t0, r.songs.map DbSong.title⟩)]) := rfl
        rw [hcr]
        exact store_lookup_cons_self uid _ []

theorem enhanced_more_step_ok {β : Type} [LinearOrder β] (catalog : List DbSong)
    (score : DbSong → β) (uid : String) (t : ℚ)
    (sessions : List (String × UserSession)) (acc : List String)
    (hacc : ∀ s, store_lookup sessions uid = some s → s.returned_songs = acc)
    (out : EnhancedMoreOutcome) (st1 : List (String × UserSession))
    (h : enhanced_handle_more (enhanced_engine_for_more catalog score) t sessions []
        uid "more" = (out, st1)) :
    (∀ r, out = .results r →
        (r.songs.map DbSong.title).Nodup
          ∧ (∀ x ∈ r.songs.map DbSong.title, x ∉ acc)
          ∧ ∀ s2, store_lookup st1 uid = some s2 →
              s2.returned_songs = acc ++ r.songs.map DbSong.title)
      ∧ ((∀ r, out ≠ .results r) →
          ∀ s2, store_lookup st1 uid = some s2 → s2.returned_songs = acc) := by
  rcases hlk : store_lookup sessions uid with _ | s
  · rw [enhanced_handle_more, get_session_absent t sessions uid hlk] at h
    injection h with h1 h2
    subst h1
    subst h2
    refine ⟨(fun r hr => by cases hr), ?_⟩
    intro _ s2 hs2
    rw [hlk] at hs2
    cases hs2
  · by_cases hexp : is_session_expired t s = true
    · rw [enhanced_handle_more, get_session_expired_case t sessions uid s hlk hexp] at h
      injection h with h1 h2
      subst h1
      subst h2
      refine ⟨(fun r hr => by cases hr), ?_⟩
      intro _ s2 hs2
      rw [store_lookup_erase_self] at hs2
      cases hs2
    · have hexp2 : is_session_expired t s = false := Bool.eq_false_iff.mpr hexp
      rw [enhanced_handle_more, get_session_active t sessions uid s hlk hexp2] at h
      replace h : (match s.last_search with
          | none => (enhanced_more_fallback t [] uid, sessions)
          | some last =>
            match enhanced_engine_for_more catalog score (split_str last.theme ", ")
                "more" s.returned_songs with
            | none => (EnhancedMoreOutcome.no_more last.theme, sessions)
            | some more_result =>
              if more_result.songs.isEmpty = true then
                (EnhancedMoreOutcome.no_more last.theme, sessions)
              else
                (EnhancedMoreOutcome.results more_result,
                  (update_session_activity t
                    (add_returned_songs_to_session t sessions uid
                      (List.map DbSong.title more_result.songs)) uid).2)) = (out, st1) := h
      rcases hls : s.last_search with _ | last
      · rw [hls] at h
        injection h with h1 h2
        subst h1
        subst h2
        refine ⟨(fun r hr => by cases hr), ?_⟩
        intro _ s2 hs2
        rw [hlk] at hs2
        rw [Option.some.injEq] at hs2
        subst hs2
        exact hacc s hlk
      · rw [hls] at h
        replace h : (match enhanced_engine_for_more catalog score
              (split_str last.theme ", ") "more" s.returned_songs with
            | none => (EnhancedMoreOutcome.no_more last.theme, sessions)
            | some more_result =>
              if more_result.songs.isEmpty = true then
                (EnhancedMoreOutcome.no_more last.theme, sessions)
              else
                (EnhancedMoreOutcome.results more_result,
                  (update_session_activity t
                    (add_returned_songs_to_session t sessions uid
                      (List.map DbSong.title more_result.songs)) uid).2)) = (out, st1) := h
        rcases hE : enhanced_engine_for_more catalog score (split_str last.theme ", ")
            "more" s.returned_songs with _ | r
        · rw [hE] at h
          injection h with h1 h2
          subst h1
          subst h2
          refine ⟨(fun r hr => by cases hr), ?_⟩
          intro _ s2 hs2
          rw [hlk] at hs2
          rw [Option.some.injEq] at hs2
          subst hs2
          exact hacc s hlk
        · rw [hE] at h
          replace h : (if r.songs.isEmpty = true then
                (EnhancedMoreOutcome.no_more last.theme, sessions)
              else
                (EnhancedMoreOutcome.results r,
                  (update_session_activity t
                    (add_returned_songs_to_session t sessions uid
                      (List.map DbSong.title r.songs)) uid).2)) = (out, st1) := h
          by_cases hre : r.songs.isEmpty = true
          · rw [if_pos hre] at h
            injection h with h1 h2
            subst h1
            subst h2
            refine ⟨(fun r hr => by cases hr), ?_⟩
            intro _ s2 hs2
            rw [hlk] at hs2
            rw [Option.some.injEq] at hs2
            subst hs2
            exact hacc s hlk
          · rw [if_neg hre] at h
            have hret : s.returned_songs = acc := hacc s hlk
            have htitles := search_with_parsed_query_titles catalog score
              { themes := split_str last.theme ", ", raw_query := "more" }
              s.returned_songs r hE
            have hadd : add_returned_songs_to_session t sessions uid
                (r.songs.map DbSong.title)
                = store_update sessions uid
                    { s with returned_songs :=
                        s.returned_songs ++ r.songs.map DbSong.title } :=
              add_returned_active t sessions uid s _ hlk hexp2
            have hlk2 : store_lookup (store_update sessions uid
                { s with returned_songs := s.returned_songs ++ r.songs.map DbSong.title })
                uid = some { s with returned_songs :=
                    s.returned_songs ++ r.songs.map DbSong.title } :=
              store_lookup_update_self uid _ sessions s hlk
            have hexp3 : is_session_expired t
                { s with returned_songs := s.returned_songs ++ r.songs.map DbSong.title }
                = false := hexp2
            have hupd := update_activity_active t
              (store_update sessions uid
                { s with returned_songs := s.returned_songs ++ r.songs.map DbSong.title })
              uid _ hlk2 hexp3
            rw [hadd, hupd] at h
            injection h with h1 h2
            subst h1
            subst h2
            constructor
            · intro r2 hr2
              rw [EnhancedMoreOutcome.results.injEq] at hr2
              subst hr2
              refine ⟨htitles.1, ?_, ?_⟩
              · intro x hx
                rw [← hret]
                exact htitles.2 x hx
              · intro s2 hs2
                have hlk3 := store_lookup_update_self uid
                  { { s with returned_songs :=
                        s.returned_songs ++ r.songs.map DbSong.title }
                    with last_activity := t }
                  (store_update sessions uid
                    { s with returned_songs :=
                        s.returned_songs ++ r.songs.map DbSong.title })
                  _ hlk2
                rw [hlk3] at hs2
                rw [Option.some.injEq] at hs2
                subst hs2
                simp only
                rw [hret]
            · intro hne
              exact absurd rfl (hne r)

theorem run_more_requests_ok {β : Type} [LinearOrder β] (catalog : List DbSong)
    (score : DbSong → β) (uid : String) :
    ∀ (ts : List ℚ) (sessions : List (String × UserSession)) (acc : List String),
      acc.Nodup →
      (∀ s, store_lookup sessions uid = some s → s.returned_songs = acc) →
      (acc ++ (run_more_requests catalog score uid ts sessions).flatten).Nodup := by
  intro ts
  induction ts with
  | nil =>
    intro sessions acc ha _
    simpa [run_more_requests] using ha
  | cons t ts ih =>
    intro sessions acc ha hacc
    rw [run_more_requests]
    rcases hE : enhanced_handle_more (enhanced_engine_for_more catalog score) t sessions []
        uid "more" with ⟨out, st1⟩
    obtain ⟨hres, hother⟩ :=
      enhanced_more_step_ok catalog score uid t sessions acc hacc out st1 hE
    cases out with
    | results r =>
      obtain ⟨hnd, hdisj, hlkp⟩ := hres r rfl
      show (acc ++ ((r.songs.map DbSong.title)
        :: run_more_requests catalog score uid ts st1).flatten).Nodup
      rw [List.flatten_cons, ← List.append_assoc]
      apply ih st1 (acc ++ r.songs.map DbSong.title)
      · exact ha.append hnd (fun a hax hay => hdisj a hay hax)
      · exact hlkp
    | no_previous_search =>
      show (acc ++ (run_more_requests catalog score uid ts st1).flatten).Nodup
      exact ih st1 acc ha (hother (fun r hr => by cases hr))
    | redo_search themes =>
      show (acc ++ (run_more_requests catalog score uid ts st1).flatten).Nodup
      exact ih st1 acc ha (hother (fun r hr => by cases hr))
    | no_more theme =>
      show (acc ++ (run_more_requests catalog score uid ts st1).flatten).Nodup
      exact ih st1 acc ha (hother (fun r hr => by cases hr))

/-- C1: for one initial search followed by any number of more requests on
the same thread (through the enhanced handler, with no conversation-context
resurrection), no song title is ever returned twice: each search stores the
returned titles in the session, each more request passes the cumulative
returned-title list as the exclusion set, and the resolver omits every
excluded title.  The sole catalog assumption is that active titles are
pairwise distinct ("enough distinct matching songs" in the claim). -/
theorem no_repeat_across_more {β : Type} [LinearOrder β] (catalog : List DbSong)
    (score : DbSong → β) (key_extract : String → Option String) (uid : String)
    (pq : ParsedQuery) (t0 : ℚ) (ts : List ℚ)
    (hcat : (catalog.map DbSong.title).Nodup) :
    ((search_then_more_titles catalog score key_extract uid pq t0 ts).flatten).Nodup := by
  rw [search_then_more_titles]
  rcases hn : handle_natural_search catalog score key_extract t0 [] uid pq with ⟨res, st⟩
  obtain ⟨hnone, hsome⟩ := handle_natural_search_empty_store catalog score key_extract
    t0 uid pq res st hcat hn
  cases res with
  | none =>
    have := run_more_requests_ok catalog score uid ts st [] List.nodup_nil
      (fun s2 hs2 => by rw [hnone rfl] at hs2; cases hs2)
    simpa using this
  | some r =>
    obtain ⟨hnd, hlkp⟩ := hsome r rfl
    rw [List.flatten_cons]
    have := run_more_requests_ok catalog score uid ts st (r.songs.map DbSong.title) hnd
      (fun s2 hs2 => by
        rw [hlkp] at hs2
        rw [Option.some.injEq] at hs2
        subst hs2
        rfl)
    exact this

/-- Witness for C1 at a concrete input: a two-song catalog, a search on
`grace` followed by two more requests; the concatenation of everything
shown to the user is duplicate-free. -/
theorem no_repeat_across_more_witness :
    ((search_then_more_titles
        [⟨"Amazing", "ArtistA", some "G", some 70, ["grace"], [], true⟩,
         ⟨"Mercy", "ArtistB", some "A", some 71, ["grace"], [], true⟩]
        (fun _ => (0 : ℕ)) (fun _ => none) "u" { themes := ["grace"], raw_query := "q" }
        0 [1, 2]).flatten).Nodup :=
  no_repeat_across_more
    [⟨"Amazing", "ArtistA", some "G", some 70, ["grace"], [], true⟩,
     ⟨"Mercy", "ArtistB", some "A", some 71, ["grace"], [], true⟩]
    (fun _ => (0 : ℕ)) (fun _ => none) "u" { themes := ["grace"], raw_query := "q" }
    0 [1, 2] (by decide)

end DavidBot
